import Mathlib

/-!
Shallow embedding of the RAG subsystem of the Nocker repository:
the embedding service (canonical text construction), the Qdrant vector
store client (upsert / filtered search / delete), the RAG service
(indexing pipeline, retrieval, context assembly) and the FastAPI
endpoints that gate retrieval on the knowledge-base indexing flag.

Python dynamic values are modelled by the inductive type `Val`
(strings, integers, lists, dictionaries); Python dicts are association
lists preserving insertion order.  Fallible Python code (operations that
can raise) returns `Option`.  The external embedding model and the
cosine scoring performed inside the Qdrant server are parameters
(`model`, `sim`): the code under verification treats both as opaque.
-/

/-- A Python value as it occurs in knowledge-base records and payloads. -/
inductive Val where
  | str (s : String)
  | int (n : Int)
  | vlist (l : List Val)
  | vdict (d : List (String × Val))

/-- A Python dict with string keys, as an insertion-ordered association list. -/
abbrev Dict := List (String × Val)

mutual

/-- Models Python str() on a value (as interpolated by an f-string). -/
def pyStr : Val → String
  | .str s => s
  | .int n => toString n
  | .vlist l => "[" ++ pyStrJoin l ++ "]"
  | .vdict d => "\x7b" ++ pyStrJoinKV d ++ "\x7d"

/-- Models Python repr() as used for elements nested inside a list or dict. -/
def pyRepr : Val → String
  | .str s => "\x27" ++ s ++ "\x27"
  | .int n => toString n
  | .vlist l => "[" ++ pyStrJoin l ++ "]"
  | .vdict d => "\x7b" ++ pyStrJoinKV d ++ "\x7d"

/-- Comma-joined reprs of the elements of a Python list. -/
def pyStrJoin : List Val → String
  | [] => ""
  | [v] => pyRepr v
  | v :: w :: rest => pyRepr v ++ ", " ++ pyStrJoin (w :: rest)

/-- Comma-joined key: value reprs of the entries of a Python dict. -/
def pyStrJoinKV : List (String × Val) → String
  | [] => ""
  | [(k, v)] => "\x27" ++ k ++ "\x27: " ++ pyRepr v
  | (k, v) :: kw :: rest => "\x27" ++ k ++ "\x27: " ++ pyRepr v ++ ", " ++ pyStrJoinKV (kw :: rest)

end

/-- Python truthiness of a value. -/
def truthy : Val → Bool
  | .str s => !s.isEmpty
  | .int n => n != 0
  | .vlist l => !l.isEmpty
  | .vdict d => !d.isEmpty

/-- Models d.get(k): the value at the first matching key, if any. -/
def pyGet (d : Dict) (k : String) : Option Val :=
  (d.find? (fun kv => kv.1 == k)).map (fun kv => kv.2)

/-- Models d.get(k, default). -/
def pyGetD (d : Dict) (k : String) (default : Val) : Val :=
  (pyGet d k).getD default

/-- Python truthiness of d.get(k): false when the key is absent. -/
def pyTruthy (o : Option Val) : Bool :=
  match o with
  | none => false
  | some v => truthy v

/-- Models the Python dict update that happens in a literal such as
\x7b**payload, k: v\x7d: an existing key keeps its position with the new
value, a new key is appended at the end. -/
def dictSet (d : Dict) (k : String) (v : Val) : Dict :=
  if d.any (fun kv => kv.1 == k) then
    d.map (fun kv => if kv.1 == k then (k, v) else kv)
  else
    d ++ [(k, v)]

/-- The value as a string, when it is one. -/
def Val.asStr? : Val → Option String
  | .str s => some s
  | _ => none

/-- Models Python s[:n] on a string: the first n characters. -/
def takeChars (n : Nat) (s : String) : String :=
  (s.toList.take n).asString

/-- Models the expression ", ".join(x) as applied to a dynamic value:
joining a list succeeds only when every element is a string (otherwise
Python raises TypeError, modelled as none); joining a string joins its
characters; joining a dict joins its keys. -/
def joinComma : Val → Option String
  | .str s => some (String.intercalate ", " (s.toList.map (fun c => String.singleton c)))
  | .vlist l => (l.mapM Val.asStr?).map (String.intercalate ", ")
  | .vdict d => some (String.intercalate ", " (d.map (fun kv => kv.1)))
  | .int _ => none

/-! ## Embedding service (src/backend/app/services/embeddings/embedding_service.py)

The sentence-transformer model is external; it is modelled as a
parameter `model : String → Option (List ℚ)` (none models a raised
exception inside encode, which the service re-raises). -/

/-- One optional text segment: the pattern
`if record.get(key): parts.append(label + str(record[key]))`
used for the title, company, name and description fields. -/
def fieldSeg (label : String) (o : Option Val) : List String :=
  match o with
  | some v => if truthy v then [label ++ pyStr v] else []
  | none => []

/-- The optional technologies segment: present when the field is truthy,
its content the comma-join of the field value; none models the TypeError
raised by join on a malformed value. -/
def techSeg (o : Option Val) : Option (List String) :=
  match o with
  | some v =>
      if truthy v then (joinComma v).map (fun tl => ["Technologies: " ++ tl])
      else some []
  | none => some []

/-- The text_parts list built by encode_work_experience. -/
def workExpTextParts (experience : Dict) : Option (List String) :=
  (techSeg (pyGet experience "technologies")).map (fun te =>
    fieldSeg "Title: " (pyGet experience "title") ++
    fieldSeg "Company: " (pyGet experience "company") ++
    fieldSeg "Description: " (pyGet experience "description") ++ te)

/-- The canonical text built by encode_work_experience:
text_parts joined with the separator. -/
def encodeWorkExperienceText (experience : Dict) : Option String :=
  (workExpTextParts experience).map (String.intercalate " | ")

/-- encode_work_experience: canonical text, then the model embedding. -/
def encode_work_experience (model : String → Option (List ℚ)) (experience : Dict) :
    Option (List ℚ) :=
  (encodeWorkExperienceText experience).bind model

/-- The text_parts list built by encode_project. -/
def projectTextParts (project : Dict) : Option (List String) :=
  (techSeg (pyGet project "technologies")).map (fun te =>
    fieldSeg "Project: " (pyGet project "name") ++
    fieldSeg "Description: " (pyGet project "description") ++ te)

/-- The canonical text built by encode_project. -/
def encodeProjectText (project : Dict) : Option String :=
  (projectTextParts project).map (String.intercalate " | ")

/-- encode_project: canonical text, then the model embedding. -/
def encode_project (model : String → Option (List ℚ)) (project : Dict) :
    Option (List ℚ) :=
  (encodeProjectText project).bind model

/-- The canonical text built by encode_skill: a plain string is formatted
directly; a dict reads the skill (or name) key and an optional
proficiency; any other value raises AttributeError on .get (none). -/
def encodeSkillText : Val → Option String
  | .str s => some ("Skill: " ++ s)
  | .vdict d =>
      let base := "Skill: " ++ pyStr (pyGetD d "skill" (pyGetD d "name" (.str "")))
      some (if pyTruthy (pyGet d "proficiency") then
              base ++ " | Proficiency: " ++ pyStr (pyGetD d "proficiency" (.str ""))
            else base)
  | _ => none

/-- encode_skill: canonical text, then the model embedding. -/
def encode_skill (model : String → Option (List ℚ)) (skill : Val) : Option (List ℚ) :=
  (encodeSkillText skill).bind model

/-- The canonical text built by encode_qa_pair: the answer segment is
appended only when the answer is truthy. -/
def encodeQaPairText (question : String) (answer : Val) : String :=
  if truthy answer then "Question: " ++ question ++ " | Answer: " ++ pyStr answer
  else "Question: " ++ question

/-- encode_qa_pair: canonical text, then the model embedding. -/
def encode_qa_pair (model : String → Option (List ℚ)) (question : String) (answer : Val) :
    Option (List ℚ) :=
  model (encodeQaPairText question answer)

/-! ## Qdrant service (src/backend/app/services/qdrant/qdrant_service.py)

The external Qdrant server is modelled as four point lists (one per
collection) plus a counter supplying fresh point identifiers (the
uuid4 of the source).  The cosine scoring the server performs at query
time is a parameter `sim : List ℚ → List ℚ → ℚ`. -/

/-- A stored point: fresh identifier, vector, payload. -/
structure Point where
  id : Nat
  vector : List ℚ
  payload : Dict

/-- The state of the four collections. -/
structure Store where
  work_experiences : List Point
  projects : List Point
  skills : List Point
  qa_pairs : List Point
  nextId : Nat

/-- An empty Qdrant state. -/
def emptyStore : Store := ⟨[], [], [], [], 0⟩

/-- The point built by upsert_work_experience: the input payload
decorated (in order) with kb_id, experience_id and type. -/
def mkExpPoint (st : Store) (kb_id : Int) (experience_id : String)
    (vector : List ℚ) (payload : Dict) : Point :=
  { id := st.nextId, vector := vector,
    payload := dictSet (dictSet (dictSet payload "kb_id" (.int kb_id))
      "experience_id" (.str experience_id)) "type" (.str "work_experience") }

/-- upsert_work_experience: append a fresh point to the collection. -/
def upsert_work_experience (st : Store) (kb_id : Int) (experience_id : String)
    (vector : List ℚ) (payload : Dict) : Store :=
  { st with
    work_experiences := st.work_experiences ++ [mkExpPoint st kb_id experience_id vector payload],
    nextId := st.nextId + 1 }

/-- The point built by upsert_project. -/
def mkProjPoint (st : Store) (kb_id : Int) (project_id : String)
    (vector : List ℚ) (payload : Dict) : Point :=
  { id := st.nextId, vector := vector,
    payload := dictSet (dictSet (dictSet payload "kb_id" (.int kb_id))
      "project_id" (.str project_id)) "type" (.str "project") }

/-- upsert_project: append a fresh point to the collection. -/
def upsert_project (st : Store) (kb_id : Int) (project_id : String)
    (vector : List ℚ) (payload : Dict) : Store :=
  { st with
    projects := st.projects ++ [mkProjPoint st kb_id project_id vector payload],
    nextId := st.nextId + 1 }

/-- The point built by upsert_skill. -/
def mkSkillPoint (st : Store) (kb_id : Int) (skill_id : String)
    (vector : List ℚ) (payload : Dict) : Point :=
  { id := st.nextId, vector := vector,
    payload := dictSet (dictSet (dictSet payload "kb_id" (.int kb_id))
      "skill_id" (.str skill_id)) "type" (.str "skill") }

/-- upsert_skill: append a fresh point to the collection. -/
def upsert_skill (st : Store) (kb_id : Int) (skill_id : String)
    (vector : List ℚ) (payload : Dict) : Store :=
  { st with
    skills := st.skills ++ [mkSkillPoint st kb_id skill_id vector payload],
    nextId := st.nextId + 1 }

/-- The point built by upsert_qa_pair. -/
def mkQaPoint (st : Store) (kb_id : Int) (qa_id : String)
    (vector : List ℚ) (payload : Dict) : Point :=
  { id := st.nextId, vector := vector,
    payload := dictSet (dictSet (dictSet payload "kb_id" (.int kb_id))
      "qa_id" (.str qa_id)) "type" (.str "qa") }

/-- upsert_qa_pair: append a fresh point to the collection. -/
def upsert_qa_pair (st : Store) (kb_id : Int) (qa_id : String)
    (vector : List ℚ) (payload : Dict) : Store :=
  { st with
    qa_pairs := st.qa_pairs ++ [mkQaPoint st kb_id qa_id vector payload],
    nextId := st.nextId + 1 }

/-- The query filter used by every search: FieldCondition on key kb_id
matching the given knowledge-base id. -/
def matchKb (payload : Dict) (kb_id : Int) : Bool :=
  match pyGet payload "kb_id" with
  | some (.int n) => n == kb_id
  | _ => false

/-- Insert a point into a list kept in descending order of score. -/
def insertByScoreDesc (sim : List ℚ → List ℚ → ℚ) (q : List ℚ) (p : Point) :
    List Point → List Point
  | [] => [p]
  | r :: rest =>
      if sim q r.vector ≤ sim q p.vector then p :: r :: rest
      else r :: insertByScoreDesc sim q p rest

/-- Sort points by descending similarity to the query vector. -/
def sortByScoreDesc (sim : List ℚ → List ℚ → ℚ) (q : List ℚ) :
    List Point → List Point
  | [] => []
  | p :: rest => insertByScoreDesc sim q p (sortByScoreDesc sim q rest)

/-- One search hit as returned to the caller: score plus stored payload. -/
structure SearchResult where
  score : ℚ
  payload : Dict

/-- Models client.query_points on one collection: keep the points whose
payload kb_id matches the filter, order by descending similarity, take
the limit, and return score plus payload for each. -/
def queryPoints (sim : List ℚ → List ℚ → ℚ) (points : List Point)
    (query : List ℚ) (kb_id : Int) (limit : Nat) : List SearchResult :=
  (((sortByScoreDesc sim query (points.filter (fun p => matchKb p.payload kb_id))).take
      limit).map (fun p => { score := sim query p.vector, payload := p.payload }))

/-- search_experiences: query_points on the work_experiences collection. -/
def search_experiences (sim : List ℚ → List ℚ → ℚ) (st : Store)
    (query_vector : List ℚ) (kb_id : Int) (limit : Nat) : List SearchResult :=
  queryPoints sim st.work_experiences query_vector kb_id limit

/-- search_projects: query_points on the projects collection. -/
def search_projects (sim : List ℚ → List ℚ → ℚ) (st : Store)
    (query_vector : List ℚ) (kb_id : Int) (limit : Nat) : List SearchResult :=
  queryPoints sim st.projects query_vector kb_id limit

/-- search_skills: query_points on the skills collection. -/
def search_skills (sim : List ℚ → List ℚ → ℚ) (st : Store)
    (query_vector : List ℚ) (kb_id : Int) (limit : Nat) : List SearchResult :=
  queryPoints sim st.skills query_vector kb_id limit

/-- search_qa_pairs: query_points on the qa_pairs collection. -/
def search_qa_pairs (sim : List ℚ → List ℚ → ℚ) (st : Store)
    (query_vector : List ℚ) (kb_id : Int) (limit : Nat) : List SearchResult :=
  queryPoints sim st.qa_pairs query_vector kb_id limit

/-- delete_by_kb_id: loop over the four collections; on each, try
client.delete with the kb_id filter, swallowing any client exception.
The parameter `fail` says, by collection name, whether the external
client raises on that delete call; a raising call leaves its collection
unchanged, a successful one removes every matching point. -/
def delete_by_kb_id (fail : String → Bool) (kb_id : Int) (st : Store) : Store :=
  let delFrom := fun (name : String) (pts : List Point) =>
    if fail name then pts else pts.filter (fun p => !matchKb p.payload kb_id)
  { st with
    work_experiences := delFrom "work_experiences" st.work_experiences,
    projects := delFrom "projects" st.projects,
    skills := delFrom "skills" st.skills,
    qa_pairs := delFrom "qa_pairs" st.qa_pairs }

/-- One upsert operation, for describing index states reachable by
arbitrary interleavings of upserts for several owners. -/
inductive UpsertOp where
  | exp (kb_id : Int) (local_id : String) (vector : List ℚ) (payload : Dict)
  | proj (kb_id : Int) (local_id : String) (vector : List ℚ) (payload : Dict)
  | skill (kb_id : Int) (local_id : String) (vector : List ℚ) (payload : Dict)
  | qa (kb_id : Int) (local_id : String) (vector : List ℚ) (payload : Dict)

/-- Run a sequence of upserts against a store. -/
def applyUpserts (ops : List UpsertOp) (st : Store) : Store :=
  ops.foldl (fun st op =>
    match op with
    | .exp kb lid v p => upsert_work_experience st kb lid v p
    | .proj kb lid v p => upsert_project st kb lid v p
    | .skill kb lid v p => upsert_skill st kb lid v p
    | .qa kb lid v p => upsert_qa_pair st kb lid v p) st

/-! ## RAG service (src/backend/app/services/rag/rag_service.py)

The pipeline iterates each kind with enumerate, wrapping each item in
try/except: an encode failure (none) or an upsert call on which the
external client raises (the `ufail` parameter, by collection name and
local id) is logged and skipped. -/

/-- A knowledge-base snapshot as passed to index_knowledge_base. -/
structure KBData where
  work_experience : List Dict
  projects : List Dict
  skills : List Val
  qa_pairs : List (String × Val)

/-- The try-body for one work experience: skip on an encode failure or
a raising upsert call, otherwise upsert with local id exp_idx. -/
def expStep (model : String → Option (List ℚ)) (ufail : String → String → Bool)
    (kb_id : Int) (idx : Nat) (exp : Dict) (st : Store) : Store :=
  match encode_work_experience model exp with
  | none => st
  | some vector =>
      if ufail "work_experiences" ("exp_" ++ toString idx) then st
      else upsert_work_experience st kb_id ("exp_" ++ toString idx) vector exp

/-- The work-experience loop of index_knowledge_base, carrying the
enumerate counter. -/
def indexExperiences (model : String → Option (List ℚ)) (ufail : String → String → Bool)
    (kb_id : Int) : List Dict → Nat → Store → Store
  | [], _, st => st
  | exp :: rest, idx, st =>
      indexExperiences model ufail kb_id rest (idx + 1) (expStep model ufail kb_id idx exp st)

/-- The try-body for one project. -/
def projStep (model : String → Option (List ℚ)) (ufail : String → String → Bool)
    (kb_id : Int) (idx : Nat) (proj : Dict) (st : Store) : Store :=
  match encode_project model proj with
  | none => st
  | some vector =>
      if ufail "projects" ("proj_" ++ toString idx) then st
      else upsert_project st kb_id ("proj_" ++ toString idx) vector proj

/-- The project loop of index_knowledge_base. -/
def indexProjects (model : String → Option (List ℚ)) (ufail : String → String → Bool)
    (kb_id : Int) : List Dict → Nat → Store → Store
  | [], _, st => st
  | proj :: rest, idx, st =>
      indexProjects model ufail kb_id rest (idx + 1) (projStep model ufail kb_id idx proj st)

/-- The skill payload: a bare string is wrapped as a one-key dict, a
dict is stored as is.  The catch-all is dead code: for any other value
encode_skill has already raised and the item was skipped. -/
def skillPayload : Val → Dict
  | .str s => [("skill", .str s)]
  | .vdict d => d
  | _ => []

/-- The try-body for one skill. -/
def skillStep (model : String → Option (List ℚ)) (ufail : String → String → Bool)
    (kb_id : Int) (idx : Nat) (skill : Val) (st : Store) : Store :=
  match encode_skill model skill with
  | none => st
  | some vector =>
      if ufail "skills" ("skill_" ++ toString idx) then st
      else upsert_skill st kb_id ("skill_" ++ toString idx) vector (skillPayload skill)

/-- The skill loop of index_knowledge_base. -/
def indexSkills (model : String → Option (List ℚ)) (ufail : String → String → Bool)
    (kb_id : Int) : List Val → Nat → Store → Store
  | [], _, st => st
  | skill :: rest, idx, st =>
      indexSkills model ufail kb_id rest (idx + 1) (skillStep model ufail kb_id idx skill st)

/-- The try-body for one Q&A pair. -/
def qaStep (model : String → Option (List ℚ)) (ufail : String → String → Bool)
    (kb_id : Int) (idx : Nat) (question : String) (answer : Val) (st : Store) : Store :=
  match encode_qa_pair model question answer with
  | none => st
  | some vector =>
      if ufail "qa_pairs" ("qa_" ++ toString idx) then st
      else upsert_qa_pair st kb_id ("qa_" ++ toString idx) vector
        [("question", .str question), ("answer", answer)]

/-- The Q&A loop of index_knowledge_base, over qa_pairs.items(). -/
def indexQaPairs (model : String → Option (List ℚ)) (ufail : String → String → Bool)
    (kb_id : Int) : List (String × Val) → Nat → Store → Store
  | [], _, st => st
  | (question, answer) :: rest, idx, st =>
      indexQaPairs model ufail kb_id rest (idx + 1)
        (qaStep model ufail kb_id idx question answer st)

/-- index_knowledge_base: the four loops in source order (experiences,
projects, skills, Q&A pairs). -/
def index_knowledge_base (model : String → Option (List ℚ)) (ufail : String → String → Bool)
    (kb_id : Int) (knowledge_base : KBData) (st : Store) : Store :=
  indexQaPairs model ufail kb_id knowledge_base.qa_pairs 0
    (indexSkills model ufail kb_id knowledge_base.skills 0
      (indexProjects model ufail kb_id knowledge_base.projects 0
        (indexExperiences model ufail kb_id knowledge_base.work_experience 0 st)))

/-- The dict returned by retrieve_relevant_context. -/
structure Retrieved where
  experiences : List SearchResult
  projects : List SearchResult
  skills : List SearchResult
  qa_pairs : List SearchResult

/-- retrieve_relevant_context: embed the raw question once, then one
search per collection; the Q&A search limit is the literal 2.  A raised
embedding error propagates (none): retrieval has no partial mode. -/
def retrieve_relevant_context (sim : List ℚ → List ℚ → ℚ)
    (model : String → Option (List ℚ)) (st : Store) (question : String) (kb_id : Int)
    (max_experiences : Nat := 3) (max_projects : Nat := 2) (max_skills : Nat := 5) :
    Option Retrieved :=
  (model question).map (fun query_vector =>
    { experiences := search_experiences sim st query_vector kb_id max_experiences,
      projects := search_projects sim st query_vector kb_id max_projects,
      skills := search_skills sim st query_vector kb_id max_skills,
      qa_pairs := search_qa_pairs sim st query_vector kb_id 2 })

/-! ## Context assembly (build_context_string) -/

/-- Python two-decimal float formatting of the relevance score, with
the external float score modelled as a rational. -/
def format2f (q : ℚ) : String :=
  let c : Int := round (q * 100)
  let a := c.natAbs
  let frac := a % 100
  (if c < 0 then "-" else "") ++ toString (a / 100) ++ "." ++
    (if frac < 10 then "0" ++ toString frac else toString frac)

/-- An f-string interpolation of d.get(k): None prints as the text None. -/
def fmtOpt (o : Option Val) : String :=
  match o with
  | none => "None"
  | some v => pyStr v

/-- Models Python v[:n] on a dynamic value: strings and lists are
sliced, anything else raises TypeError (none). -/
def pySlice (n : Nat) : Val → Option Val
  | .str s => some (.str (takeChars n s))
  | .vlist l => some (.vlist (l.take n))
  | _ => none

/-- The header line emitted for one retrieved work experience. -/
def expHeaderLine (item : SearchResult) : String :=
  "- " ++ fmtOpt (pyGet item.payload "title") ++ " at " ++
    fmtOpt (pyGet item.payload "company") ++ " (relevance: " ++ format2f item.score ++ ")"

/-- The two context lines emitted for one retrieved work experience:
header line, then the description sliced to 200 indented by two spaces. -/
def expEntryParts (item : SearchResult) : Option (List String) :=
  (pySlice 200 (pyGetD item.payload "description" (.str ""))).map (fun d =>
    [expHeaderLine item, "  " ++ pyStr d])

/-- The header line emitted for one retrieved project. -/
def projHeaderLine (item : SearchResult) : String :=
  "- " ++ fmtOpt (pyGet item.payload "name") ++ " (relevance: " ++ format2f item.score ++ ")"

/-- The two context lines emitted for one retrieved project. -/
def projEntryParts (item : SearchResult) : Option (List String) :=
  (pySlice 200 (pyGetD item.payload "description" (.str ""))).map (fun d =>
    [projHeaderLine item, "  " ++ pyStr d])

/-- The two context lines emitted for one retrieved Q&A pair: the
question line, then the answer sliced to 150. -/
def qaEntryParts (item : SearchResult) : Option (List String) :=
  (pySlice 150 (pyGetD item.payload "answer" (.str ""))).map (fun a =>
    ["Q: " ++ fmtOpt (pyGet item.payload "question"), "A: " ++ pyStr a])

/-- The experiences section: header plus per-item lines, skipped
entirely when the list is empty (Python truthiness of the list). -/
def expSection (retrieved_context : Retrieved) : Option (List String) :=
  if retrieved_context.experiences.isEmpty then some []
  else (retrieved_context.experiences.mapM expEntryParts).map
    (fun ls => "Relevant Work Experience:" :: ls.flatten)

/-- The projects section. -/
def projSection (retrieved_context : Retrieved) : Option (List String) :=
  if retrieved_context.projects.isEmpty then some []
  else (retrieved_context.projects.mapM projEntryParts).map
    (fun ls => "\nRelevant Projects:" :: ls.flatten)

/-- The skills_list comprehension: each payload skill value, defaulted
to the empty string. -/
def skillNames (retrieved_context : Retrieved) : List Val :=
  retrieved_context.skills.map (fun item => pyGetD item.payload "skill" (.str ""))

/-- The skills section: one line joining the first ten skill names. -/
def skillsSection (retrieved_context : Retrieved) : Option (List String) :=
  if retrieved_context.skills.isEmpty then some []
  else (joinComma (.vlist ((skillNames retrieved_context).take 10))).map
    (fun j => ["\nRelevant Skills: " ++ j])

/-- The Q&A section. -/
def qaSection (retrieved_context : Retrieved) : Option (List String) :=
  if retrieved_context.qa_pairs.isEmpty then some []
  else (retrieved_context.qa_pairs.mapM qaEntryParts).map
    (fun ls => "\nSimilar Questions You\x27ve Answered:" :: ls.flatten)

/-- build_context_string: the four sections in order, joined with
newlines; none models an exception raised while formatting an item. -/
def build_context_string (retrieved_context : Retrieved) : Option String :=
  (expSection retrieved_context).bind (fun e =>
    (projSection retrieved_context).bind (fun p =>
      (skillsSection retrieved_context).bind (fun s =>
        (qaSection retrieved_context).map (fun q =>
          String.intercalate "\n" (e ++ p ++ s ++ q)))))

/-- delete_knowledge_base: delegate to the Qdrant cascade delete. -/
def delete_knowledge_base (fail : String → Bool) (kb_id : Int) (st : Store) : Store :=
  delete_by_kb_id fail kb_id st

/-! ## RAG API endpoints (src/backend/app/api/v1/endpoints/rag.py)

The relational KnowledgeBase row is modelled by `KBRecord` (nullable
JSON columns and the nullable embedding_id flag); the endpoint receives
the result of the database lookup as an `Option KBRecord`.  HTTP error
responses are the constructors of `EndpointError`. -/

/-- The KnowledgeBase row as the endpoints read it. -/
structure KBRecord where
  embedding_id : Option String
  work_experience : Option (List Dict)
  projects : Option (List Dict)
  skills : Option (List Val)
  qa_pairs : Option (List (String × Val))

/-- HTTPException responses raised by the endpoints: 404 (knowledge
base not found), 400 (knowledge base not indexed), 500 (wrapped
internal exception). -/
inductive EndpointError where
  | notFound
  | notIndexed
  | internal
deriving DecidableEq

/-- Python truthiness of the embedding_id column: false for NULL and
for the empty string. -/
def embeddingIdTruthy (o : Option String) : Bool :=
  match o with
  | none => false
  | some s => !s.isEmpty

/-- The kb_data dict the index endpoint assembles, defaulting each
NULL column. -/
def kbDataOf (kb : KBRecord) : KBData :=
  { work_experience := kb.work_experience.getD [],
    projects := kb.projects.getD [],
    skills := kb.skills.getD [],
    qa_pairs := kb.qa_pairs.getD [] }

/-- The indexed counts object in the index endpoint response. -/
structure IndexedCounts where
  experiences : Nat
  projects : Nat
  skills : Nat
  qa_pairs : Nat
deriving DecidableEq

/-- The index endpoint: 404 when the row is missing, otherwise index
the assembled kb_data, set the embedding_id flag, and report the
lengths of the input lists as counts.  Returns the response counts,
the resulting store and the updated row. -/
def index_endpoint (model : String → Option (List ℚ)) (ufail : String → String → Bool)
    (st : Store) (kbOpt : Option KBRecord) (kb_id : Int) :
    Except EndpointError (IndexedCounts × Store × KBRecord) :=
  match kbOpt with
  | none => .error .notFound
  | some kb =>
      let kb_data := kbDataOf kb
      let st' := index_knowledge_base model ufail kb_id kb_data st
      .ok ({ experiences := kb_data.work_experience.length,
             projects := kb_data.projects.length,
             skills := kb_data.skills.length,
             qa_pairs := kb_data.qa_pairs.length },
           st',
           { kb with embedding_id := some ("indexed_" ++ toString kb_id) })

/-- The body of the search request. -/
structure SearchRequest where
  question : String
  max_experiences : Nat := 3
  max_projects : Nat := 2
  max_skills : Nat := 5

/-- The search endpoint: 404 when the row is missing, 400 when the
embedding_id flag is not truthy, otherwise the retrieval result (500
when retrieval raises). -/
def search_endpoint (sim : List ℚ → List ℚ → ℚ) (model : String → Option (List ℚ))
    (st : Store) (kbOpt : Option KBRecord) (req : SearchRequest) :
    Except EndpointError Retrieved :=
  match kbOpt with
  | none => .error .notFound
  | some kb =>
      if !embeddingIdTruthy kb.embedding_id then .error .notIndexed
      else
        match retrieve_relevant_context sim model st req.question 1
            req.max_experiences req.max_projects req.max_skills with
        | none => .error .internal
        | some retrieved => .ok retrieved

/-- The body of the answer-with-rag request. -/
structure AnswerRequest where
  question : String
  job_title : Option String := none
  company : Option String := none

/-- The answer endpoint response: the generated answer, the per-kind
retrieval counts, and the context excerpt truncated to 500 characters. -/
structure AnswerResponse where
  answer : String
  num_experiences : Nat
  num_projects : Nat
  num_skills : Nat
  num_qa_pairs : Nat
  context_used : String

/-- The fixed system prompt of the answer endpoint. -/
def answerSystemPrompt : String :=
  "You are a professional career advisor answering job application questions.\n\n" ++
  "Use the provided relevant context from the candidate\x27s background to craft " ++
  "a specific, compelling answer.\n\nGuidelines:\n- Keep answers concise " ++
  "(2-3 sentences)\n- Reference specific experiences when relevant\n- Be honest " ++
  "and authentic\n- Show enthusiasm for the role"

/-- The user prompt assembled by the answer endpoint around the
retrieved context. -/
def answerUserPrompt (req : AnswerRequest) (context_str : String) : String :=
  "Question: " ++ req.question ++ "\n\n" ++
  (match req.job_title with
   | some j => if j.isEmpty then "" else "Job: " ++ j
   | none => "") ++ "\n" ++
  (match req.company with
   | some c => if c.isEmpty then "" else "Company: " ++ c
   | none => "") ++ "\n\n" ++
  "Relevant Background Context:\n" ++ context_str ++ "\n\n" ++
  "Based on the above context, provide a compelling answer to the question:"

/-- The answer endpoint: the same 404/400 gating as search, then
retrieval with the fixed limits 3, 2, 5, context assembly, and the
external generation call (the parameter `gen`, taking the user and
system prompts). -/
def answer_endpoint (sim : List ℚ → List ℚ → ℚ) (model : String → Option (List ℚ))
    (gen : String → String → String) (st : Store) (kbOpt : Option KBRecord)
    (req : AnswerRequest) : Except EndpointError AnswerResponse :=
  match kbOpt with
  | none => .error .notFound
  | some kb =>
      if !embeddingIdTruthy kb.embedding_id then .error .notIndexed
      else
        match retrieve_relevant_context sim model st req.question 1 3 2 5 with
        | none => .error .internal
        | some retrieved =>
            match build_context_string retrieved with
            | none => .error .internal
            | some context_str =>
                .ok { answer := gen (answerUserPrompt req context_str) answerSystemPrompt,
                      num_experiences := retrieved.experiences.length,
                      num_projects := retrieved.projects.length,
                      num_skills := retrieved.skills.length,
                      num_qa_pairs := retrieved.qa_pairs.length,
                      context_used :=
                        if context_str.length > 500 then takeChars 500 context_str ++ "..."
                        else context_str }


/-! ## Helper lemmas on the dict model -/

/-- find? for the updated key over the in-place replacement map. -/
theorem find?_replace_same (d : Dict) (k : String) (v : Val) :
    (d.map (fun kv => if kv.1 == k then (k, v) else kv)).find? (fun kv => kv.1 == k) =
      (d.find? (fun kv => kv.1 == k)).map (fun _ => (k, v)) := by
  induction d with
  | nil => rfl
  | cons kv t ih =>
      by_cases hk : kv.1 = k
      · rw [List.map_cons, if_pos (by simpa using hk),
          List.find?_cons_of_pos _ (by simp), List.find?_cons_of_pos _ (by simpa using hk)]
        rfl
      · rw [List.map_cons, if_neg (by simpa using hk),
          List.find?_cons_of_neg _ (by simpa using hk),
          List.find?_cons_of_neg _ (by simpa using hk)]
        exact ih

/-- find? for any other key over the in-place replacement map. -/
theorem find?_replace_other (d : Dict) (k k' : String) (v : Val) (hne : k' ≠ k) :
    (d.map (fun kv => if kv.1 == k then (k, v) else kv)).find? (fun kv => kv.1 == k') =
      d.find? (fun kv => kv.1 == k') := by
  induction d with
  | nil => rfl
  | cons kv t ih =>
      by_cases hk : kv.1 = k
      · rw [List.map_cons, if_pos (by simpa using hk),
          List.find?_cons_of_neg _ (by simpa using fun h => hne h.symm),
          List.find?_cons_of_neg _ (by simpa using fun h => hne (by rw [← h, hk]))]
        exact ih
      · rw [List.map_cons, if_neg (by simpa using hk)]
        by_cases hk' : kv.1 = k'
        · rw [List.find?_cons_of_pos _ (by simpa using hk'),
            List.find?_cons_of_pos _ (by simpa using hk')]
        · rw [List.find?_cons_of_neg _ (by simpa using hk'),
            List.find?_cons_of_neg _ (by simpa using hk')]
          exact ih
/-- Updating a key makes it readable with that value. -/
theorem pyGet_dictSet_same (d : Dict) (k : String) (v : Val) :
    pyGet (dictSet d k v) k = some v := by
  unfold dictSet
  by_cases h : d.any (fun kv => kv.1 == k)
  · rw [if_pos h]
    obtain ⟨kv, hmem, hkv⟩ := List.any_eq_true.mp h
    have hsome : (d.find? (fun kv => kv.1 == k)).isSome := by
      rw [List.find?_isSome]
      exact ⟨kv, hmem, hkv⟩
    obtain ⟨x, hx⟩ := Option.isSome_iff_exists.mp hsome
    unfold pyGet
    rw [find?_replace_same, hx]
    rfl
  · rw [if_neg h]
    have hnone : d.find? (fun kv => kv.1 == k) = none := by
      rw [List.find?_eq_none]
      intro x hx
      have := List.any_eq_false.mp (Bool.of_not_eq_true h) x hx
      simpa using this
    unfold pyGet
    rw [List.find?_append, hnone, Option.none_or,
      List.find?_cons_of_pos _ (by simp)]
    rfl

/-- Updating one key leaves every other key unchanged. -/
theorem pyGet_dictSet_other (d : Dict) (k k' : String) (v : Val) (hne : k' ≠ k) :
    pyGet (dictSet d k v) k' = pyGet d k' := by
  unfold dictSet
  by_cases h : d.any (fun kv => kv.1 == k)
  · rw [if_pos h]
    unfold pyGet
    rw [find?_replace_other d k k' v hne]
  · rw [if_neg h]
    unfold pyGet
    rw [List.find?_append]
    cases hd : d.find? (fun kv => kv.1 == k') with
    | some x => rfl
    | none =>
        rw [Option.none_or,
          List.find?_cons_of_neg _ (by simpa using fun hh => hne hh.symm)]
        rfl

/-! ## Helper lemmas on search -/

/-- A positive kb filter match pins the stored kb_id payload value. -/
theorem matchKb_eq_true (payload : Dict) (kb_id : Int)
    (h : matchKb payload kb_id = true) :
    pyGet payload "kb_id" = some (.int kb_id) := by
  unfold matchKb at h
  cases hv : pyGet payload "kb_id" with
  | none => rw [hv] at h; exact absurd h (by simp)
  | some v =>
      rw [hv] at h
      cases v with
      | int n =>
          have hn : n = kb_id := by simpa using h
          rw [hn]
      | str s => exact absurd h (by simp)
      | vlist l => exact absurd h (by simp)
      | vdict d => exact absurd h (by simp)

/-- Membership through score-ordered insertion. -/
theorem mem_insertByScoreDesc (sim : List ℚ → List ℚ → ℚ) (q : List ℚ) (p x : Point)
    (l : List Point) : x ∈ insertByScoreDesc sim q p l ↔ x = p ∨ x ∈ l := by
  induction l with
  | nil => simp [insertByScoreDesc]
  | cons r rest ih =>
      unfold insertByScoreDesc
      by_cases hle : sim q r.vector ≤ sim q p.vector
      · rw [if_pos hle]
        simp
      · rw [if_neg hle]
        simp only [List.mem_cons, ih]
        tauto

/-- Score-ordered insertion adds one element. -/
theorem length_insertByScoreDesc (sim : List ℚ → List ℚ → ℚ) (q : List ℚ) (p : Point)
    (l : List Point) :
    (insertByScoreDesc sim q p l).length = l.length + 1 := by
  induction l with
  | nil => rfl
  | cons r rest ih =>
      unfold insertByScoreDesc
      by_cases hle : sim q r.vector ≤ sim q p.vector
      · rw [if_pos hle]; rfl
      · rw [if_neg hle]
        simp [ih]

/-- Sorting by score preserves membership. -/
theorem mem_sortByScoreDesc (sim : List ℚ → List ℚ → ℚ) (q : List ℚ) (x : Point)
    (l : List Point) : x ∈ sortByScoreDesc sim q l ↔ x ∈ l := by
  induction l with
  | nil => simp [sortByScoreDesc]
  | cons p rest ih =>
      unfold sortByScoreDesc
      rw [mem_insertByScoreDesc]
      simp [ih]

/-- Sorting by score preserves length. -/
theorem length_sortByScoreDesc (sim : List ℚ → List ℚ → ℚ) (q : List ℚ)
    (l : List Point) : (sortByScoreDesc sim q l).length = l.length := by
  induction l with
  | nil => rfl
  | cons p rest ih =>
      unfold sortByScoreDesc
      rw [length_insertByScoreDesc, ih]
      rfl

/-- A search returns at most `limit` results. -/
theorem length_queryPoints_le (sim : List ℚ → List ℚ → ℚ) (points : List Point)
    (query : List ℚ) (kb_id : Int) (limit : Nat) :
    (queryPoints sim points query kb_id limit).length ≤ limit := by
  unfold queryPoints
  rw [List.length_map, List.length_take]
  exact min_le_left _ _

/-- Every search result's payload is the payload of a stored point that
passed the kb filter. -/
theorem mem_queryPoints (sim : List ℚ → List ℚ → ℚ) (points : List Point)
    (query : List ℚ) (kb_id : Int) (limit : Nat) (r : SearchResult)
    (hr : r ∈ queryPoints sim points query kb_id limit) :
    ∃ p ∈ points, matchKb p.payload kb_id = true ∧ r.payload = p.payload := by
  unfold queryPoints at hr
  obtain ⟨p, hp, rfl⟩ := List.mem_map.mp hr
  have hp2 : p ∈ sortByScoreDesc sim query (points.filter (fun p => matchKb p.payload kb_id)) :=
    List.mem_of_mem_take hp
  have hp3 := (mem_sortByScoreDesc _ _ _ _).mp hp2
  obtain ⟨hmem, hmatch⟩ := List.mem_filter.mp hp3
  exact ⟨p, hmem, hmatch, rfl⟩

/-! ## Helper lemmas on the indexing pipeline -/

/-- One experience step touches only the work_experiences collection. -/
theorem expStep_preserves (model : String → Option (List ℚ))
    (ufail : String → String → Bool) (kb_id : Int) (idx : Nat) (exp : Dict) (st : Store) :
    (expStep model ufail kb_id idx exp st).projects = st.projects ∧
    (expStep model ufail kb_id idx exp st).skills = st.skills ∧
    (expStep model ufail kb_id idx exp st).qa_pairs = st.qa_pairs := by
  unfold expStep
  cases encode_work_experience model exp with
  | none => exact ⟨rfl, rfl, rfl⟩
  | some vector =>
      dsimp only
      by_cases hf : ufail "work_experiences" ("exp_" ++ toString idx)
      · rw [if_pos hf]; exact ⟨rfl, rfl, rfl⟩
      · rw [if_neg hf]; exact ⟨rfl, rfl, rfl⟩

/-- One project step touches only the projects collection. -/
theorem projStep_preserves (model : String → Option (List ℚ))
    (ufail : String → String → Bool) (kb_id : Int) (idx : Nat) (proj : Dict) (st : Store) :
    (projStep model ufail kb_id idx proj st).work_experiences = st.work_experiences ∧
    (projStep model ufail kb_id idx proj st).skills = st.skills ∧
    (projStep model ufail kb_id idx proj st).qa_pairs = st.qa_pairs := by
  unfold projStep
  cases encode_project model proj with
  | none => exact ⟨rfl, rfl, rfl⟩
  | some vector =>
      dsimp only
      by_cases hf : ufail "projects" ("proj_" ++ toString idx)
      · rw [if_pos hf]; exact ⟨rfl, rfl, rfl⟩
      · rw [if_neg hf]; exact ⟨rfl, rfl, rfl⟩

/-- One skill step touches only the skills collection. -/
theorem skillStep_preserves (model : String → Option (List ℚ))
    (ufail : String → String → Bool) (kb_id : Int) (idx : Nat) (skill : Val) (st : Store) :
    (skillStep model ufail kb_id idx skill st).work_experiences = st.work_experiences ∧
    (skillStep model ufail kb_id idx skill st).projects = st.projects ∧
    (skillStep model ufail kb_id idx skill st).qa_pairs = st.qa_pairs := by
  unfold skillStep
  cases encode_skill model skill with
  | none => exact ⟨rfl, rfl, rfl⟩
  | some vector =>
      dsimp only
      by_cases hf : ufail "skills" ("skill_" ++ toString idx)
      · rw [if_pos hf]; exact ⟨rfl, rfl, rfl⟩
      · rw [if_neg hf]; exact ⟨rfl, rfl, rfl⟩

/-- One Q&A step touches only the qa_pairs collection. -/
theorem qaStep_preserves (model : String → Option (List ℚ))
    (ufail : String → String → Bool) (kb_id : Int) (idx : Nat) (question : String)
    (answer : Val) (st : Store) :
    (qaStep model ufail kb_id idx question answer st).work_experiences = st.work_experiences ∧
    (qaStep model ufail kb_id idx question answer st).projects = st.projects ∧
    (qaStep model ufail kb_id idx question answer st).skills = st.skills := by
  unfold qaStep
  cases encode_qa_pair model question answer with
  | none => exact ⟨rfl, rfl, rfl⟩
  | some vector =>
      dsimp only
      by_cases hf : ufail "qa_pairs" ("qa_" ++ toString idx)
      · rw [if_pos hf]; exact ⟨rfl, rfl, rfl⟩
      · rw [if_neg hf]; exact ⟨rfl, rfl, rfl⟩

/-- The experience loop touches only the work_experiences collection. -/
theorem indexExperiences_preserves (model : String → Option (List ℚ))
    (ufail : String → String → Bool) (kb_id : Int) (items : List Dict) :
    ∀ (idx : Nat) (st : Store),
      (indexExperiences model ufail kb_id items idx st).projects = st.projects ∧
      (indexExperiences model ufail kb_id items idx st).skills = st.skills ∧
      (indexExperiences model ufail kb_id items idx st).qa_pairs = st.qa_pairs := by
  induction items with
  | nil => intro idx st; exact ⟨rfl, rfl, rfl⟩
  | cons exp rest ih =>
      intro idx st
      have hs := expStep_preserves model ufail kb_id idx exp st
      have hr := ih (idx + 1) (expStep model ufail kb_id idx exp st)
      refine ⟨?_, ?_, ?_⟩
      · rw [indexExperiences, hr.1, hs.1]
      · rw [indexExperiences, hr.2.1, hs.2.1]
      · rw [indexExperiences, hr.2.2, hs.2.2]

/-- The project loop touches only the projects collection. -/
theorem indexProjects_preserves (model : String → Option (List ℚ))
    (ufail : String → String → Bool) (kb_id : Int) (items : List Dict) :
    ∀ (idx : Nat) (st : Store),
      (indexProjects model ufail kb_id items idx st).work_experiences = st.work_experiences ∧
      (indexProjects model ufail kb_id items idx st).skills = st.skills ∧
      (indexProjects model ufail kb_id items idx st).qa_pairs = st.qa_pairs := by
  induction items with
  | nil => intro idx st; exact ⟨rfl, rfl, rfl⟩
  | cons proj rest ih =>
      intro idx st
      have hs := projStep_preserves model ufail kb_id idx proj st
      have hr := ih (idx + 1) (projStep model ufail kb_id idx proj st)
      refine ⟨?_, ?_, ?_⟩
      · rw [indexProjects, hr.1, hs.1]
      · rw [indexProjects, hr.2.1, hs.2.1]
      · rw [indexProjects, hr.2.2, hs.2.2]

/-- The skill loop touches only the skills collection. -/
theorem indexSkills_preserves (model : String → Option (List ℚ))
    (ufail : String → String → Bool) (kb_id : Int) (items : List Val) :
    ∀ (idx : Nat) (st : Store),
      (indexSkills model ufail kb_id items idx st).work_experiences = st.work_experiences ∧
      (indexSkills model ufail kb_id items idx st).projects = st.projects ∧
      (indexSkills model ufail kb_id items idx st).qa_pairs = st.qa_pairs := by
  induction items with
  | nil => intro idx st; exact ⟨rfl, rfl, rfl⟩
  | cons skill rest ih =>
      intro idx st
      have hs := skillStep_preserves model ufail kb_id idx skill st
      have hr := ih (idx + 1) (skillStep model ufail kb_id idx skill st)
      refine ⟨?_, ?_, ?_⟩
      · rw [indexSkills, hr.1, hs.1]
      · rw [indexSkills, hr.2.1, hs.2.1]
      · rw [indexSkills, hr.2.2, hs.2.2]

/-- The Q&A loop touches only the qa_pairs collection. -/
theorem indexQaPairs_preserves (model : String → Option (List ℚ))
    (ufail : String → String → Bool) (kb_id : Int) (items : List (String × Val)) :
    ∀ (idx : Nat) (st : Store),
      (indexQaPairs model ufail kb_id items idx st).work_experiences = st.work_experiences ∧
      (indexQaPairs model ufail kb_id items idx st).projects = st.projects ∧
      (indexQaPairs model ufail kb_id items idx st).skills = st.skills := by
  induction items with
  | nil => intro idx st; exact ⟨rfl, rfl, rfl⟩
  | cons qa rest ih =>
      intro idx st
      obtain ⟨question, answer⟩ := qa
      have hs := qaStep_preserves model ufail kb_id idx question answer st
      have hr := ih (idx + 1) (qaStep model ufail kb_id idx question answer st)
      refine ⟨?_, ?_, ?_⟩
      · rw [indexQaPairs, hr.1, hs.1]
      · rw [indexQaPairs, hr.2.1, hs.2.1]
      · rw [indexQaPairs, hr.2.2, hs.2.2]

/-- How many experiences, from position idx on, encode successfully and
upsert without a client error. -/
def expSuccCount (model : String → Option (List ℚ)) (ufail : String → String → Bool) :
    List Dict → Nat → Nat
  | [], _ => 0
  | exp :: rest, idx =>
      (match encode_work_experience model exp with
       | none => 0
       | some _ => if ufail "work_experiences" ("exp_" ++ toString idx) then 0 else 1) +
      expSuccCount model ufail rest (idx + 1)

/-- How many projects, from position idx on, encode successfully and
upsert without a client error. -/
def projSuccCount (model : String → Option (List ℚ)) (ufail : String → String → Bool) :
    List Dict → Nat → Nat
  | [], _ => 0
  | proj :: rest, idx =>
      (match encode_project model proj with
       | none => 0
       | some _ => if ufail "projects" ("proj_" ++ toString idx) then 0 else 1) +
      projSuccCount model ufail rest (idx + 1)

/-- How many skills, from position idx on, encode successfully and
upsert without a client error. -/
def skillSuccCount (model : String → Option (List ℚ)) (ufail : String → String → Bool) :
    List Val → Nat → Nat
  | [], _ => 0
  | skill :: rest, idx =>
      (match encode_skill model skill with
       | none => 0
       | some _ => if ufail "skills" ("skill_" ++ toString idx) then 0 else 1) +
      skillSuccCount model ufail rest (idx + 1)

/-- How many Q&A pairs, from position idx on, encode successfully and
upsert without a client error. -/
def qaSuccCount (model : String → Option (List ℚ)) (ufail : String → String → Bool) :
    List (String × Val) → Nat → Nat
  | [], _ => 0
  | (question, answer) :: rest, idx =>
      (match encode_qa_pair model question answer with
       | none => 0
       | some _ => if ufail "qa_pairs" ("qa_" ++ toString idx) then 0 else 1) +
      qaSuccCount model ufail rest (idx + 1)

/-- A step adds one point exactly when the item encodes and upserts. -/
theorem expStep_length (model : String → Option (List ℚ)) (ufail : String → String → Bool)
    (kb_id : Int) (idx : Nat) (exp : Dict) (st : Store) :
    (expStep model ufail kb_id idx exp st).work_experiences.length =
      st.work_experiences.length +
        (match encode_work_experience model exp with
         | none => 0
         | some _ => if ufail "work_experiences" ("exp_" ++ toString idx) then 0 else 1) := by
  unfold expStep
  cases encode_work_experience model exp with
  | none => rfl
  | some vector =>
      dsimp only
      by_cases hf : ufail "work_experiences" ("exp_" ++ toString idx)
      · rw [if_pos hf, if_pos hf]; omega
      · rw [if_neg hf, if_neg hf]
        simp [upsert_work_experience]

/-- The experience loop stores exactly the successful items. -/
theorem indexExperiences_length (model : String → Option (List ℚ))
    (ufail : String → String → Bool) (kb_id : Int) (items : List Dict) :
    ∀ (idx : Nat) (st : Store),
      (indexExperiences model ufail kb_id items idx st).work_experiences.length =
        st.work_experiences.length + expSuccCount model ufail items idx := by
  induction items with
  | nil => intro idx st; rfl
  | cons exp rest ih =>
      intro idx st
      rw [indexExperiences, ih (idx + 1) _, expStep_length, expSuccCount]
      omega

/-- A step adds one point exactly when the item encodes and upserts. -/
theorem projStep_length (model : String → Option (List ℚ)) (ufail : String → String → Bool)
    (kb_id : Int) (idx : Nat) (proj : Dict) (st : Store) :
    (projStep model ufail kb_id idx proj st).projects.length =
      st.projects.length +
        (match encode_project model proj with
         | none => 0
         | some _ => if ufail "projects" ("proj_" ++ toString idx) then 0 else 1) := by
  unfold projStep
  cases encode_project model proj with
  | none => rfl
  | some vector =>
      dsimp only
      by_cases hf : ufail "projects" ("proj_" ++ toString idx)
      · rw [if_pos hf, if_pos hf]; omega
      · rw [if_neg hf, if_neg hf]
        simp [upsert_project]

/-- The project loop stores exactly the successful items. -/
theorem indexProjects_length (model : String → Option (List ℚ))
    (ufail : String → String → Bool) (kb_id : Int) (items : List Dict) :
    ∀ (idx : Nat) (st : Store),
      (indexProjects model ufail kb_id items idx st).projects.length =
        st.projects.length + projSuccCount model ufail items idx := by
  induction items with
  | nil => intro idx st; rfl
  | cons proj rest ih =>
      intro idx st
      rw [indexProjects, ih (idx + 1) _, projStep_length, projSuccCount]
      omega

/-- A step adds one point exactly when the item encodes and upserts. -/
theorem skillStep_length (model : String → Option (List ℚ)) (ufail : String → String → Bool)
    (kb_id : Int) (idx : Nat) (skill : Val) (st : Store) :
    (skillStep model ufail kb_id idx skill st).skills.length =
      st.skills.length +
        (match encode_skill model skill with
         | none => 0
         | some _ => if ufail "skills" ("skill_" ++ toString idx) then 0 else 1) := by
  unfold skillStep
  cases encode_skill model skill with
  | none => rfl
  | some vector =>
      dsimp only
      by_cases hf : ufail "skills" ("skill_" ++ toString idx)
      · rw [if_pos hf, if_pos hf]; omega
      · rw [if_neg hf, if_neg hf]
        simp [upsert_skill]

/-- The skill loop stores exactly the successful items. -/
theorem indexSkills_length (model : String → Option (List ℚ))
    (ufail : String → String → Bool) (kb_id : Int) (items : List Val) :
    ∀ (idx : Nat) (st : Store),
      (indexSkills model ufail kb_id items idx st).skills.length =
        st.skills.length + skillSuccCount model ufail items idx := by
  induction items with
  | nil => intro idx st; rfl
  | cons skill rest ih =>
      intro idx st
      rw [indexSkills, ih (idx + 1) _, skillStep_length, skillSuccCount]
      omega

/-- A step adds one point exactly when the item encodes and upserts. -/
theorem qaStep_length (model : String → Option (List ℚ)) (ufail : String → String → Bool)
    (kb_id : Int) (idx : Nat) (question : String) (answer : Val) (st : Store) :
    (qaStep model ufail kb_id idx question answer st).qa_pairs.length =
      st.qa_pairs.length +
        (match encode_qa_pair model question answer with
         | none => 0
         | some _ => if ufail "qa_pairs" ("qa_" ++ toString idx) then 0 else 1) := by
  unfold qaStep
  cases encode_qa_pair model question answer with
  | none => rfl
  | some vector =>
      dsimp only
      by_cases hf : ufail "qa_pairs" ("qa_" ++ toString idx)
      · rw [if_pos hf, if_pos hf]; omega
      · rw [if_neg hf, if_neg hf]
        simp [upsert_qa_pair]

/-- The Q&A loop stores exactly the successful items. -/
theorem indexQaPairs_length (model : String → Option (List ℚ))
    (ufail : String → String → Bool) (kb_id : Int) (items : List (String × Val)) :
    ∀ (idx : Nat) (st : Store),
      (indexQaPairs model ufail kb_id items idx st).qa_pairs.length =
        st.qa_pairs.length + qaSuccCount model ufail items idx := by
  induction items with
  | nil => intro idx st; rfl
  | cons qa rest ih =>
      intro idx st
      obtain ⟨question, answer⟩ := qa
      rw [indexQaPairs, ih (idx + 1) _, qaStep_length, qaSuccCount]
      omega

/-- A point added by one experience step carries local id exp_idx. -/
theorem mem_expStep (model : String → Option (List ℚ)) (ufail : String → String → Bool)
    (kb_id : Int) (idx : Nat) (exp : Dict) (st : Store) (p : Point)
    (h : p ∈ (expStep model ufail kb_id idx exp st).work_experiences) :
    p ∈ st.work_experiences ∨
      pyGet p.payload "experience_id" = some (.str ("exp_" ++ toString idx)) := by
  unfold expStep at h
  cases henc : encode_work_experience model exp with
  | none => rw [henc] at h; exact Or.inl h
  | some vector =>
      rw [henc] at h
      dsimp only at h
      by_cases hf : ufail "work_experiences" ("exp_" ++ toString idx)
      · rw [if_pos hf] at h; exact Or.inl h
      · rw [if_neg hf] at h
        rcases List.mem_append.mp h with hl | hr
        · exact Or.inl hl
        · have hp : p = mkExpPoint st kb_id ("exp_" ++ toString idx) vector exp := by
            simpa using hr
          right
          rw [hp]
          show pyGet (dictSet (dictSet (dictSet exp "kb_id" (.int kb_id))
            "experience_id" (.str ("exp_" ++ toString idx))) "type"
            (.str "work_experience")) "experience_id" = _
          rw [pyGet_dictSet_other _ _ _ _ (by decide), pyGet_dictSet_same]

/-- Every point the experience loop adds carries a zero-based exp_i id. -/
theorem mem_indexExperiences (model : String → Option (List ℚ))
    (ufail : String → String → Bool) (kb_id : Int) (items : List Dict) :
    ∀ (idx : Nat) (st : Store) (p : Point),
      p ∈ (indexExperiences model ufail kb_id items idx st).work_experiences →
      p ∈ st.work_experiences ∨
        ∃ j, j < items.length ∧
          pyGet p.payload "experience_id" = some (.str ("exp_" ++ toString (idx + j))) := by
  induction items with
  | nil => intro idx st p h; exact Or.inl h
  | cons exp rest ih =>
      intro idx st p h
      rw [indexExperiences] at h
      rcases ih (idx + 1) _ p h with hl | ⟨j, hj, hkey⟩
      · rcases mem_expStep model ufail kb_id idx exp st p hl with hll | hkey
        · exact Or.inl hll
        · refine Or.inr ⟨0, by simp, ?_⟩
          simpa using hkey
      · have harith : idx + 1 + j = idx + (j + 1) := by omega
        rw [harith] at hkey
        exact Or.inr ⟨j + 1, by simpa using Nat.succ_lt_succ hj, hkey⟩

/-- A point added by one project step carries local id proj_idx. -/
theorem mem_projStep (model : String → Option (List ℚ)) (ufail : String → String → Bool)
    (kb_id : Int) (idx : Nat) (proj : Dict) (st : Store) (p : Point)
    (h : p ∈ (projStep model ufail kb_id idx proj st).projects) :
    p ∈ st.projects ∨
      pyGet p.payload "project_id" = some (.str ("proj_" ++ toString idx)) := by
  unfold projStep at h
  cases henc : encode_project model proj with
  | none => rw [henc] at h; exact Or.inl h
  | some vector =>
      rw [henc] at h
      dsimp only at h
      by_cases hf : ufail "projects" ("proj_" ++ toString idx)
      · rw [if_pos hf] at h; exact Or.inl h
      · rw [if_neg hf] at h
        rcases List.mem_append.mp h with hl | hr
        · exact Or.inl hl
        · have hp : p = mkProjPoint st kb_id ("proj_" ++ toString idx) vector proj := by
            simpa using hr
          right
          rw [hp]
          show pyGet (dictSet (dictSet (dictSet proj "kb_id" (.int kb_id))
            "project_id" (.str ("proj_" ++ toString idx))) "type"
            (.str "project")) "project_id" = _
          rw [pyGet_dictSet_other _ _ _ _ (by decide), pyGet_dictSet_same]

/-- Every point the project loop adds carries a zero-based proj_i id. -/
theorem mem_indexProjects (model : String → Option (List ℚ))
    (ufail : String → String → Bool) (kb_id : Int) (items : List Dict) :
    ∀ (idx : Nat) (st : Store) (p : Point),
      p ∈ (indexProjects model ufail kb_id items idx st).projects →
      p ∈ st.projects ∨
        ∃ j, j < items.length ∧
          pyGet p.payload "project_id" = some (.str ("proj_" ++ toString (idx + j))) := by
  induction items with
  | nil => intro idx st p h; exact Or.inl h
  | cons proj rest ih =>
      intro idx st p h
      rw [indexProjects] at h
      rcases ih (idx + 1) _ p h with hl | ⟨j, hj, hkey⟩
      · rcases mem_projStep model ufail kb_id idx proj st p hl with hll | hkey
        · exact Or.inl hll
        · refine Or.inr ⟨0, by simp, ?_⟩
          simpa using hkey
      · have harith : idx + 1 + j = idx + (j + 1) := by omega
        rw [harith] at hkey
        exact Or.inr ⟨j + 1, by simpa using Nat.succ_lt_succ hj, hkey⟩

/-- A point added by one skill step carries local id skill_idx. -/
theorem mem_skillStep (model : String → Option (List ℚ)) (ufail : String → String → Bool)
    (kb_id : Int) (idx : Nat) (skill : Val) (st : Store) (p : Point)
    (h : p ∈ (skillStep model ufail kb_id idx skill st).skills) :
    p ∈ st.skills ∨
      pyGet p.payload "skill_id" = some (.str ("skill_" ++ toString idx)) := by
  unfold skillStep at h
  cases henc : encode_skill model skill with
  | none => rw [henc] at h; exact Or.inl h
  | some vector =>
      rw [henc] at h
      dsimp only at h
      by_cases hf : ufail "skills" ("skill_" ++ toString idx)
      · rw [if_pos hf] at h; exact Or.inl h
      · rw [if_neg hf] at h
        rcases List.mem_append.mp h with hl | hr
        · exact Or.inl hl
        · have hp : p = mkSkillPoint st kb_id ("skill_" ++ toString idx) vector
              (skillPayload skill) := by
            simpa using hr
          right
          rw [hp]
          show pyGet (dictSet (dictSet (dictSet (skillPayload skill) "kb_id" (.int kb_id))
            "skill_id" (.str ("skill_" ++ toString idx))) "type"
            (.str "skill")) "skill_id" = _
          rw [pyGet_dictSet_other _ _ _ _ (by decide), pyGet_dictSet_same]

/-- Every point the skill loop adds carries a zero-based skill_i id. -/
theorem mem_indexSkills (model : String → Option (List ℚ))
    (ufail : String → String → Bool) (kb_id : Int) (items : List Val) :
    ∀ (idx : Nat) (st : Store) (p : Point),
      p ∈ (indexSkills model ufail kb_id items idx st).skills →
      p ∈ st.skills ∨
        ∃ j, j < items.length ∧
          pyGet p.payload "skill_id" = some (.str ("skill_" ++ toString (idx + j))) := by
  induction items with
  | nil => intro idx st p h; exact Or.inl h
  | cons skill rest ih =>
      intro idx st p h
      rw [indexSkills] at h
      rcases ih (idx + 1) _ p h with hl | ⟨j, hj, hkey⟩
      · rcases mem_skillStep model ufail kb_id idx skill st p hl with hll | hkey
        · exact Or.inl hll
        · refine Or.inr ⟨0, by simp, ?_⟩
          simpa using hkey
      · have harith : idx + 1 + j = idx + (j + 1) := by omega
        rw [harith] at hkey
        exact Or.inr ⟨j + 1, by simpa using Nat.succ_lt_succ hj, hkey⟩

/-- A point added by one Q&A step carries local id qa_idx. -/
theorem mem_qaStep (model : String → Option (List ℚ)) (ufail : String → String → Bool)
    (kb_id : Int) (idx : Nat) (question : String) (answer : Val) (st : Store) (p : Point)
    (h : p ∈ (qaStep model ufail kb_id idx question answer st).qa_pairs) :
    p ∈ st.qa_pairs ∨
      pyGet p.payload "qa_id" = some (.str ("qa_" ++ toString idx)) := by
  unfold qaStep at h
  cases henc : encode_qa_pair model question answer with
  | none => rw [henc] at h; exact Or.inl h
  | some vector =>
      rw [henc] at h
      dsimp only at h
      by_cases hf : ufail "qa_pairs" ("qa_" ++ toString idx)
      · rw [if_pos hf] at h; exact Or.inl h
      · rw [if_neg hf] at h
        rcases List.mem_append.mp h with hl | hr
        · exact Or.inl hl
        · have hp : p = mkQaPoint st kb_id ("qa_" ++ toString idx) vector
              [("question", .str question), ("answer", answer)] := by
            simpa using hr
          right
          rw [hp]
          show pyGet (dictSet (dictSet (dictSet [("question", .str question),
            ("answer", answer)] "kb_id" (.int kb_id))
            "qa_id" (.str ("qa_" ++ toString idx))) "type"
            (.str "qa")) "qa_id" = _
          rw [pyGet_dictSet_other _ _ _ _ (by decide), pyGet_dictSet_same]

/-- Every point the Q&A loop adds carries a zero-based qa_i id. -/
theorem mem_indexQaPairs (model : String → Option (List ℚ))
    (ufail : String → String → Bool) (kb_id : Int) (items : List (String × Val)) :
    ∀ (idx : Nat) (st : Store) (p : Point),
      p ∈ (indexQaPairs model ufail kb_id items idx st).qa_pairs →
      p ∈ st.qa_pairs ∨
        ∃ j, j < items.length ∧
          pyGet p.payload "qa_id" = some (.str ("qa_" ++ toString (idx + j))) := by
  induction items with
  | nil => intro idx st p h; exact Or.inl h
  | cons qa rest ih =>
      intro idx st p h
      obtain ⟨question, answer⟩ := qa
      rw [indexQaPairs] at h
      rcases ih (idx + 1) _ p h with hl | ⟨j, hj, hkey⟩
      · rcases mem_qaStep model ufail kb_id idx question answer st p hl with hll | hkey
        · exact Or.inl hll
        · refine Or.inr ⟨0, by simp, ?_⟩
          simpa using hkey
      · have harith : idx + 1 + j = idx + (j + 1) := by omega
        rw [harith] at hkey
        exact Or.inr ⟨j + 1, by simpa using Nat.succ_lt_succ hj, hkey⟩

/-! ## Remaining helper lemmas and concrete instances -/

/-- Python slicing to n characters yields at most n characters. -/
theorem length_takeChars (n : Nat) (s : String) : (takeChars n s).length ≤ n := by
  have h : (takeChars n s).length = (s.toList.take n).length := rfl
  rw [h, List.length_take]
  exact min_le_left _ _

/-- At most as many experiences succeed as were attempted. -/
theorem expSuccCount_le (model : String → Option (List ℚ)) (ufail : String → String → Bool)
    (items : List Dict) : ∀ idx, expSuccCount model ufail items idx ≤ items.length := by
  induction items with
  | nil => intro idx; exact Nat.le_refl 0
  | cons exp rest ih =>
      intro idx
      rw [expSuccCount]
      have h1 : (match encode_work_experience model exp with
          | none => 0
          | some _ => if ufail "work_experiences" ("exp_" ++ toString idx) then 0 else 1) ≤ 1 := by
        cases encode_work_experience model exp with
        | none => exact Nat.zero_le 1
        | some v =>
            dsimp only
            by_cases hf : ufail "work_experiences" ("exp_" ++ toString idx)
            · rw [if_pos hf]; exact Nat.zero_le 1
            · rw [if_neg hf]
      have h2 := ih (idx + 1)
      have := Nat.add_le_add h1 h2
      simpa [List.length_cons, Nat.add_comm] using this

/-- At most as many projects succeed as were attempted. -/
theorem projSuccCount_le (model : String → Option (List ℚ)) (ufail : String → String → Bool)
    (items : List Dict) : ∀ idx, projSuccCount model ufail items idx ≤ items.length := by
  induction items with
  | nil => intro idx; exact Nat.le_refl 0
  | cons proj rest ih =>
      intro idx
      rw [projSuccCount]
      have h1 : (match encode_project model proj with
          | none => 0
          | some _ => if ufail "projects" ("proj_" ++ toString idx) then 0 else 1) ≤ 1 := by
        cases encode_project model proj with
        | none => exact Nat.zero_le 1
        | some v =>
            dsimp only
            by_cases hf : ufail "projects" ("proj_" ++ toString idx)
            · rw [if_pos hf]; exact Nat.zero_le 1
            · rw [if_neg hf]
      have h2 := ih (idx + 1)
      have := Nat.add_le_add h1 h2
      simpa [List.length_cons, Nat.add_comm] using this

/-- At most as many skills succeed as were attempted. -/
theorem skillSuccCount_le (model : String → Option (List ℚ)) (ufail : String → String → Bool)
    (items : List Val) : ∀ idx, skillSuccCount model ufail items idx ≤ items.length := by
  induction items with
  | nil => intro idx; exact Nat.le_refl 0
  | cons skill rest ih =>
      intro idx
      rw [skillSuccCount]
      have h1 : (match encode_skill model skill with
          | none => 0
          | some _ => if ufail "skills" ("skill_" ++ toString idx) then 0 else 1) ≤ 1 := by
        cases encode_skill model skill with
        | none => exact Nat.zero_le 1
        | some v =>
            dsimp only
            by_cases hf : ufail "skills" ("skill_" ++ toString idx)
            · rw [if_pos hf]; exact Nat.zero_le 1
            · rw [if_neg hf]
      have h2 := ih (idx + 1)
      have := Nat.add_le_add h1 h2
      simpa [List.length_cons, Nat.add_comm] using this

/-- At most as many Q&A pairs succeed as were attempted. -/
theorem qaSuccCount_le (model : String → Option (List ℚ)) (ufail : String → String → Bool)
    (items : List (String × Val)) : ∀ idx, qaSuccCount model ufail items idx ≤ items.length := by
  induction items with
  | nil => intro idx; exact Nat.le_refl 0
  | cons qa rest ih =>
      intro idx
      obtain ⟨question, answer⟩ := qa
      rw [qaSuccCount]
      have h1 : (match encode_qa_pair model question answer with
          | none => 0
          | some _ => if ufail "qa_pairs" ("qa_" ++ toString idx) then 0 else 1) ≤ 1 := by
        cases encode_qa_pair model question answer with
        | none => exact Nat.zero_le 1
        | some v =>
            dsimp only
            by_cases hf : ufail "qa_pairs" ("qa_" ++ toString idx)
            · rw [if_pos hf]; exact Nat.zero_le 1
            · rw [if_neg hf]
      have h2 := ih (idx + 1)
      have := Nat.add_le_add h1 h2
      simpa [List.length_cons, Nat.add_comm] using this

/-- A technologies segment never coincides with a segment of another label. -/
theorem techSeg_ne_other (j x : String) :
    ("Technologies: " ++ j) ≠ "Title: " ++ x ∧
    ("Technologies: " ++ j) ≠ "Company: " ++ x ∧
    ("Technologies: " ++ j) ≠ "Description: " ++ x := by
  refine ⟨fun h => ?_, fun h => ?_, fun h => ?_⟩ <;>
  · have h2 := congrArg String.data h
    rw [String.data_append, String.data_append] at h2
    revert h2
    first
      | (rw [show ("Technologies: ").data =
            ['T','e','c','h','n','o','l','o','g','i','e','s',':',' '] from rfl,
          show ("Title: ").data = ['T','i','t','l','e',':',' '] from rfl]
         intro h2; simp at h2)
      | (rw [show ("Technologies: ").data =
            ['T','e','c','h','n','o','l','o','g','i','e','s',':',' '] from rfl,
          show ("Company: ").data = ['C','o','m','p','a','n','y',':',' '] from rfl]
         intro h2; simp at h2)
      | (rw [show ("Technologies: ").data =
            ['T','e','c','h','n','o','l','o','g','i','e','s',':',' '] from rfl,
          show ("Description: ").data = ['D','e','s','c','r','i','p','t','i','o','n',':',' '] from rfl]
         intro h2; simp at h2)

/-- A member of a field segment comes from a present, truthy value. -/
theorem mem_fieldSeg (label : String) (o : Option Val) (p : String)
    (h : p ∈ fieldSeg label o) :
    ∃ v, o = some v ∧ truthy v = true ∧ p = label ++ pyStr v := by
  cases o with
  | none => exact absurd h (by simp [fieldSeg])
  | some v =>
      unfold fieldSeg at h
      dsimp only at h
      by_cases ht : truthy v
      · rw [if_pos ht] at h
        exact ⟨v, rfl, ht, by simpa using h⟩
      · rw [if_neg ht] at h
        exact absurd h (by simp)

/-! ## Concrete instances used by witnesses and counterexamples -/

/-- A constant scoring function. -/
def sim0 : List ℚ → List ℚ → ℚ := fun _ _ => 0

/-- A total embedding model returning a fixed vector. -/
def model0 : String → Option (List ℚ) := fun _ => some [1]

/-- A constant generation collaborator. -/
def gen0 : String → String → String := fun _ _ => "ok"

/-- A client on which no upsert call raises. -/
def noUpsertFail : String → String → Bool := fun _ _ => false

/-- A malformed project record: joining an integer technologies value
raises TypeError inside encode_project. -/
def badProj : Dict := [("name", .str "P2"), ("technologies", .int 1)]

/-- A well-formed project record. -/
def goodProj (name : String) : Dict :=
  [("name", .str name), ("description", .str "built things")]

/-- Five projects of which the one at index 2 fails to encode. -/
def kb5 : KBData :=
  { work_experience := [],
    projects := [goodProj "P0", goodProj "P1", badProj, goodProj "P3", goodProj "P4"],
    skills := [], qa_pairs := [] }

/-- The knowledge-base row carrying the five projects. -/
def kbRec5 : KBRecord :=
  { embedding_id := none, work_experience := some [], projects := some kb5.projects,
    skills := some [], qa_pairs := some [] }

/-- A row that has never been indexed. -/
def kbUnindexed : KBRecord :=
  { embedding_id := none, work_experience := some [], projects := some [],
    skills := some [], qa_pairs := some [] }

/-- A row whose indexing flag was set by a successful index call. -/
def kbIndexed : KBRecord :=
  { embedding_id := some "indexed_1", work_experience := some [], projects := some [],
    skills := some [], qa_pairs := some [] }

/-- A concrete search request. -/
def sreq0 : SearchRequest := { question := "what did you build" }

/-- A concrete answer request. -/
def areq0 : AnswerRequest := { question := "what did you build" }

/-- Upserts for two distinct owners, ids 1 and 2. -/
def opsAB : List UpsertOp :=
  [.exp 1 "exp_0" [1] [("title", .str "owner one role")],
   .exp 2 "exp_0" [1] [("title", .str "owner two role")]]

/-- A client raising only on the projects delete call. -/
def failProjOnly : String → Bool := fun c => c == "projects"

/-- A point owned by knowledge base 7. -/
def ptKb7 (i : Nat) : Point := { id := i, vector := [1], payload := [("kb_id", .int 7)] }

/-- A store holding one owner-7 point in each collection. -/
def stDel : Store :=
  { work_experiences := [ptKb7 0], projects := [ptKb7 1], skills := [ptKb7 2],
    qa_pairs := [ptKb7 3], nextId := 4 }

/-- A retrieved work experience item. -/
def itemExp0 : SearchResult :=
  { score := 1,
    payload := [("title", .str "Backend Engineer"), ("company", .str "Acme"),
      ("description", .str "Built APIs")] }

/-- A retrieved Q&A item. -/
def itemQa0 : SearchResult :=
  { score := 1, payload := [("question", .str "Why us"), ("answer", .str "Because")] }

/-- A retrieved skill item. -/
def itemSkill0 : SearchResult := { score := 1, payload := [("skill", .str "Python")] }

/-- A concrete retrieval result. -/
def ctxW : Retrieved :=
  { experiences := [itemExp0], projects := [], skills := [itemSkill0], qa_pairs := [itemQa0] }

/-- A work experience whose technologies list holds one empty string. -/
def emptyTechExp : Dict := [("technologies", .vlist [.str ""])]

/-- A payload used to exercise payload decoration. -/
def payW : Dict := [("title", .str "Backend Engineer")]

/-! ## Claims -/

/-- Claim C10: a retrieval result whose four lists are all empty (the shape
retrieve always returns; a missing key reads as an empty, falsy list
under dict.get) makes build_context_string return exactly the empty
string, with no section header or other text. -/
theorem build_context_string_empty :
    build_context_string { experiences := [], projects := [], skills := [], qa_pairs := [] } =
      some "" := rfl

/-- Claim C1: while the knowledge-base row exists but its embedding_id flag is
NULL, both the search endpoint and the answer endpoint return the
"not indexed" 400 error, independent of the vector-store state (no
retrieval is attempted); once the flag holds a nonempty token, as
written by a successful index call, neither endpoint returns that
error. -/
theorem unindexed_rejection (sim : List ℚ → List ℚ → ℚ)
    (model : String → Option (List ℚ)) (gen : String → String → String)
    (st st' : Store) (kb : KBRecord) (sreq : SearchRequest) (areq : AnswerRequest) :
    (kb.embedding_id = none →
      search_endpoint sim model st (some kb) sreq = .error .notIndexed ∧
      answer_endpoint sim model gen st (some kb) areq = .error .notIndexed ∧
      search_endpoint sim model st (some kb) sreq = search_endpoint sim model st' (some kb) sreq ∧
      answer_endpoint sim model gen st (some kb) areq =
        answer_endpoint sim model gen st' (some kb) areq) ∧
    (∀ s, kb.embedding_id = some s → s ≠ "" →
      search_endpoint sim model st (some kb) sreq ≠ .error .notIndexed ∧
      answer_endpoint sim model gen st (some kb) areq ≠ .error .notIndexed) := by
  constructor
  · intro hnone
    have hfalse : embeddingIdTruthy kb.embedding_id = false := by
      rw [hnone]; rfl
    unfold search_endpoint answer_endpoint
    dsimp only
    rw [hfalse]
    exact ⟨rfl, rfl, rfl, rfl⟩
  · intro s hs hne
    have htrue : embeddingIdTruthy kb.embedding_id = true := by
      rw [hs]
      unfold embeddingIdTruthy
      have : s.isEmpty = false := by
        cases he : s.isEmpty
        · rfl
        · exact absurd ((String.isEmpty_iff s).mp he) hne
      simp [this]
    constructor
    · unfold search_endpoint
      dsimp only
      rw [htrue]
      cases retrieve_relevant_context sim model st sreq.question 1
          sreq.max_experiences sreq.max_projects sreq.max_skills with
      | none => simp
      | some r => simp
    · unfold answer_endpoint
      dsimp only
      rw [htrue]
      cases retrieve_relevant_context sim model st areq.question 1 3 2 5 with
      | none => simp
      | some r =>
          dsimp only
          cases build_context_string r with
          | none => simp
          | some c => simp

/-- Witness for C1 at concrete rows: the NULL-flag row is rejected as
not indexed, the row with flag indexed_1 is not. -/
theorem unindexed_rejection_witness :
    search_endpoint sim0 model0 emptyStore (some kbUnindexed) sreq0 = .error .notIndexed ∧
    search_endpoint sim0 model0 emptyStore (some kbIndexed) sreq0 ≠ .error .notIndexed ∧
    answer_endpoint sim0 model0 gen0 emptyStore (some kbIndexed) areq0 ≠ .error .notIndexed := by
  refine ⟨?_, ?_, ?_⟩
  · exact ((unindexed_rejection sim0 model0 gen0 emptyStore emptyStore kbUnindexed
      sreq0 areq0).1 rfl).1
  · exact ((unindexed_rejection sim0 model0 gen0 emptyStore emptyStore kbIndexed
      sreq0 areq0).2 "indexed_1" rfl (by decide)).1
  · exact ((unindexed_rejection sim0 model0 gen0 emptyStore emptyStore kbIndexed
      sreq0 areq0).2 "indexed_1" rfl (by decide)).2

/-- Claim C9: the cascade delete is best effort and total: per collection, a
raising client call is swallowed and leaves that collection unchanged,
while every collection whose call succeeds is purged of the owner's
points — regardless of which of the other collections failed, so a
failure on one collection never aborts the deletion attempts on the
others and the operation itself never raises. -/
theorem delete_by_kb_id_best_effort (fail : String → Bool) (kb_id : Int) (st : Store) :
    (fail "work_experiences" = false →
      ∀ p ∈ (delete_by_kb_id fail kb_id st).work_experiences, matchKb p.payload kb_id = false) ∧
    (fail "work_experiences" = true →
      (delete_by_kb_id fail kb_id st).work_experiences = st.work_experiences) ∧
    (fail "projects" = false →
      ∀ p ∈ (delete_by_kb_id fail kb_id st).projects, matchKb p.payload kb_id = false) ∧
    (fail "projects" = true →
      (delete_by_kb_id fail kb_id st).projects = st.projects) ∧
    (fail "skills" = false →
      ∀ p ∈ (delete_by_kb_id fail kb_id st).skills, matchKb p.payload kb_id = false) ∧
    (fail "skills" = true →
      (delete_by_kb_id fail kb_id st).skills = st.skills) ∧
    (fail "qa_pairs" = false →
      ∀ p ∈ (delete_by_kb_id fail kb_id st).qa_pairs, matchKb p.payload kb_id = false) ∧
    (fail "qa_pairs" = true →
      (delete_by_kb_id fail kb_id st).qa_pairs = st.qa_pairs) := by
  unfold delete_by_kb_id
  dsimp only
  refine ⟨?_, ?_, ?_, ?_, ?_, ?_, ?_, ?_⟩
  · intro hf p hp
    rw [hf] at hp
    simp at hp
    exact hp.2
  · intro hf
    rw [hf]
    simp
  · intro hf p hp
    rw [hf] at hp
    simp at hp
    exact hp.2
  · intro hf
    rw [hf]
    simp
  · intro hf p hp
    rw [hf] at hp
    simp at hp
    exact hp.2
  · intro hf
    rw [hf]
    simp
  · intro hf p hp
    rw [hf] at hp
    simp at hp
    exact hp.2
  · intro hf
    rw [hf]
    simp

/-- Witness for C9: with the client raising only on the projects
collection, the other three collections are still purged of owner 7
and the projects collection is left as it was. -/
theorem delete_by_kb_id_best_effort_witness :
    (∀ p ∈ (delete_by_kb_id failProjOnly 7 stDel).work_experiences,
       matchKb p.payload 7 = false) ∧
    (delete_by_kb_id failProjOnly 7 stDel).projects = stDel.projects ∧
    (∀ p ∈ (delete_by_kb_id failProjOnly 7 stDel).skills, matchKb p.payload 7 = false) ∧
    (∀ p ∈ (delete_by_kb_id failProjOnly 7 stDel).qa_pairs, matchKb p.payload 7 = false) := by
  have h := delete_by_kb_id_best_effort failProjOnly 7 stDel
  exact ⟨h.1 rfl, h.2.2.2.1 rfl, h.2.2.2.2.1 rfl, h.2.2.2.2.2.2.1 rfl⟩

/-- Claim C3: build_context_string truncates every experience and project
description line to the first 200 characters of the description, every
Q&A answer line to the first 150 characters of the answer, and joins at
most the first 10 retrieved skill names into the skills line, however
many items were retrieved. -/
theorem build_context_string_budget (retrieved_context : Retrieved) :
    (∀ item ∈ retrieved_context.experiences, ∀ s : String,
      pyGetD item.payload "description" (.str "") = .str s →
      expEntryParts item = some [expHeaderLine item, "  " ++ takeChars 200 s] ∧
      (takeChars 200 s).length ≤ 200) ∧
    (∀ item ∈ retrieved_context.projects, ∀ s : String,
      pyGetD item.payload "description" (.str "") = .str s →
      projEntryParts item = some [projHeaderLine item, "  " ++ takeChars 200 s] ∧
      (takeChars 200 s).length ≤ 200) ∧
    (∀ item ∈ retrieved_context.qa_pairs, ∀ s : String,
      pyGetD item.payload "answer" (.str "") = .str s →
      qaEntryParts item = some ["Q: " ++ fmtOpt (pyGet item.payload "question"),
        "A: " ++ takeChars 150 s] ∧
      (takeChars 150 s).length ≤ 150) ∧
    ((skillNames retrieved_context).take 10).length ≤ 10 ∧
    (∀ l, skillsSection retrieved_context = some l → ∀ line ∈ l,
      ∃ j, joinComma (.vlist ((skillNames retrieved_context).take 10)) = some j ∧
        line = "\nRelevant Skills: " ++ j) := by
  refine ⟨?_, ?_, ?_, ?_, ?_⟩
  · intro item _ s hs
    constructor
    · unfold expEntryParts
      rw [hs]
      rfl
    · exact length_takeChars 200 s
  · intro item _ s hs
    constructor
    · unfold projEntryParts
      rw [hs]
      rfl
    · exact length_takeChars 200 s
  · intro item _ s hs
    constructor
    · unfold qaEntryParts
      rw [hs]
      rfl
    · exact length_takeChars 150 s
  · rw [List.length_take]
    exact min_le_left _ _
  · intro l hl line hline
    unfold skillsSection at hl
    by_cases he : retrieved_context.skills.isEmpty
    · rw [if_pos he] at hl
      cases hl
      exact absurd hline (by simp)
    · rw [if_neg he] at hl
      cases hj : joinComma (.vlist ((skillNames retrieved_context).take 10)) with
      | none => rw [hj] at hl; cases hl
      | some j =>
          rw [hj] at hl
          cases hl
          have : line = "\nRelevant Skills: " ++ j := by simpa using hline
          exact ⟨j, rfl, this⟩

/-- Witness for C3 at a concrete retrieval result. -/
theorem build_context_string_budget_witness :
    (expEntryParts itemExp0 = some [expHeaderLine itemExp0, "  " ++ takeChars 200 "Built APIs"] ∧
      (takeChars 200 "Built APIs").length ≤ 200) ∧
    (qaEntryParts itemQa0 = some ["Q: " ++ fmtOpt (pyGet itemQa0.payload "question"),
        "A: " ++ takeChars 150 "Because"] ∧
      (takeChars 150 "Because").length ≤ 150) ∧
    ((skillNames ctxW).take 10).length ≤ 10 := by
  have h := build_context_string_budget ctxW
  exact ⟨h.1 itemExp0 (by simp [ctxW]) "Built APIs" rfl,
    h.2.2.1 itemQa0 (by simp [ctxW]) "Because" rfl,
    h.2.2.2.1⟩

/-- Claim C4 counterexample: a record whose technologies value is a list
holding one empty string is truthy, so the guard keeps the segment, yet
the comma-join of the list is empty: the canonical string is the
formatted-but-empty segment Technologies-colon-space, refuting the
claim that no formatted-but-empty segment ever appears. -/
theorem encode_work_experience_empty_segment :
    encodeWorkExperienceText emptyTechExp = some "Technologies: " ∧
    workExpTextParts emptyTechExp = some ["Technologies: "] := by
  constructor <;> rfl

/-- Claim C4 (amended): the canonical string joins with the separator exactly
the segments of the truthy fields, so a record lacking a technologies
field (or whose value is falsy) yields no Technologies segment, and a
segment only ever appears for a present, truthy field — but the
technologies segment content is the comma-join of the field value,
which can be empty (for the list holding one empty string), so a
formatted-but-empty segment is possible there. -/
theorem encode_work_experience_amended (experience : Dict) (parts : List String)
    (h : workExpTextParts experience = some parts) :
    encodeWorkExperienceText experience = some (String.intercalate " | " parts) ∧
    (pyTruthy (pyGet experience "technologies") = false →
      ∀ j : String, ("Technologies: " ++ j) ∉ parts) ∧
    (∀ p ∈ parts,
      (∃ v, pyGet experience "title" = some v ∧ truthy v = true ∧
        p = "Title: " ++ pyStr v) ∨
      (∃ v, pyGet experience "company" = some v ∧ truthy v = true ∧
        p = "Company: " ++ pyStr v) ∨
      (∃ v, pyGet experience "description" = some v ∧ truthy v = true ∧
        p = "Description: " ++ pyStr v) ∨
      (∃ v j, pyGet experience "technologies" = some v ∧ truthy v = true ∧
        joinComma v = some j ∧ p = "Technologies: " ++ j)) := by
  cases hts : techSeg (pyGet experience "technologies") with
  | none =>
      rw [workExpTextParts, hts] at h
      cases h
  | some te =>
      rw [workExpTextParts, hts] at h
      have hparts : fieldSeg "Title: " (pyGet experience "title") ++
          fieldSeg "Company: " (pyGet experience "company") ++
          fieldSeg "Description: " (pyGet experience "description") ++ te = parts := by
        simpa using h
      have hw : workExpTextParts experience = some parts := by
        rw [workExpTextParts, hts]
        exact h
      refine ⟨?_, ?_, ?_⟩
      · unfold encodeWorkExperienceText
        rw [hw]
        rfl
      · intro hfalsy j hmem
        have hte : te = [] := by
          unfold techSeg at hts
          cases hg : pyGet experience "technologies" with
          | none => rw [hg] at hts; simpa using hts.symm
          | some v =>
              rw [hg] at hts
              dsimp only at hts
              have htv : truthy v = false := by
                have := hfalsy
                rw [hg] at this
                simpa [pyTruthy] using this
              rw [htv] at hts
              simpa using hts.symm
        rw [← hparts, hte] at hmem
        simp only [List.append_nil, List.mem_append] at hmem
        rcases hmem with (hm | hm) | hm
        · obtain ⟨v, _, _, hp⟩ := mem_fieldSeg _ _ _ hm
          exact (techSeg_ne_other j (pyStr v)).1 hp
        · obtain ⟨v, _, _, hp⟩ := mem_fieldSeg _ _ _ hm
          exact (techSeg_ne_other j (pyStr v)).2.1 hp
        · obtain ⟨v, _, _, hp⟩ := mem_fieldSeg _ _ _ hm
          exact (techSeg_ne_other j (pyStr v)).2.2 hp
      · intro p hp
        rw [← hparts] at hp
        simp only [List.mem_append] at hp
        rcases hp with ((hm | hm) | hm) | hm
        · obtain ⟨v, hv, ht, hpe⟩ := mem_fieldSeg _ _ _ hm
          exact Or.inl ⟨v, hv, ht, hpe⟩
        · obtain ⟨v, hv, ht, hpe⟩ := mem_fieldSeg _ _ _ hm
          exact Or.inr (Or.inl ⟨v, hv, ht, hpe⟩)
        · obtain ⟨v, hv, ht, hpe⟩ := mem_fieldSeg _ _ _ hm
          exact Or.inr (Or.inr (Or.inl ⟨v, hv, ht, hpe⟩))
        · right; right; right
          unfold techSeg at hts
          cases hg : pyGet experience "technologies" with
          | none =>
              rw [hg] at hts
              dsimp only at hts
              have : te = [] := by simpa using hts.symm
              rw [this] at hm
              exact absurd hm (by simp)
          | some v =>
              rw [hg] at hts
              dsimp only at hts
              by_cases htv : truthy v
              · rw [if_pos htv] at hts
                cases hj : joinComma v with
                | none => rw [hj] at hts; cases hts
                | some j =>
                    rw [hj] at hts
                    have hte : te = ["Technologies: " ++ j] := by simpa using hts.symm
                    rw [hte] at hm
                    have : p = "Technologies: " ++ j := by simpa using hm
                    exact ⟨v, j, rfl, htv, hj, this⟩
              · rw [if_neg htv] at hts
                have : te = [] := by simpa using hts.symm
                rw [this] at hm
                exact absurd hm (by simp)

/-- Witness for the amended C4 at a record with title and technologies. -/
theorem encode_work_experience_amended_witness :
    encodeWorkExperienceText
        [("title", .str "Backend Engineer"), ("technologies", .vlist [.str "Py"])] =
      some (String.intercalate " | " ["Title: Backend Engineer", "Technologies: Py"]) := by
  exact (encode_work_experience_amended
    [("title", .str "Backend Engineer"), ("technologies", .vlist [.str "Py"])]
    ["Title: Backend Engineer", "Technologies: Py"] rfl).1

/-- Claim C5: retrieval issues the Q&A search with limit exactly 2 whatever
the caller-supplied limits are, while the experience, project and skill
searches receive the caller-supplied limits; consequently at most two
Q&A pairs come back and the Q&A list is identical across all
caller-supplied limit choices. -/
theorem retrieve_qa_limit_fixed_two (sim : List ℚ → List ℚ → ℚ)
    (model : String → Option (List ℚ)) (st : Store) (question : String) (kb_id : Int)
    (max_experiences max_projects max_skills : Nat) (r : Retrieved) (qv : List ℚ)
    (hq : model question = some qv)
    (hr : retrieve_relevant_context sim model st question kb_id
      max_experiences max_projects max_skills = some r) :
    r.experiences = search_experiences sim st qv kb_id max_experiences ∧
    r.projects = search_projects sim st qv kb_id max_projects ∧
    r.skills = search_skills sim st qv kb_id max_skills ∧
    r.qa_pairs = search_qa_pairs sim st qv kb_id 2 ∧
    r.qa_pairs.length ≤ 2 ∧
    r.experiences.length ≤ max_experiences ∧
    r.projects.length ≤ max_projects ∧
    r.skills.length ≤ max_skills ∧
    (∀ me mp ms r', retrieve_relevant_context sim model st question kb_id me mp ms = some r' →
      r'.qa_pairs = r.qa_pairs) := by
  unfold retrieve_relevant_context at hr
  rw [hq] at hr
  have hrec : r =
      ({ experiences := search_experiences sim st qv kb_id max_experiences,
         projects := search_projects sim st qv kb_id max_projects,
         skills := search_skills sim st qv kb_id max_skills,
         qa_pairs := search_qa_pairs sim st qv kb_id 2 } : Retrieved) := by
    have := Option.some.inj hr
    exact this.symm
  subst hrec
  refine ⟨rfl, rfl, rfl, rfl, ?_, ?_, ?_, ?_, ?_⟩
  · exact length_queryPoints_le sim st.qa_pairs qv kb_id 2
  · exact length_queryPoints_le sim st.work_experiences qv kb_id max_experiences
  · exact length_queryPoints_le sim st.projects qv kb_id max_projects
  · exact length_queryPoints_le sim st.skills qv kb_id max_skills
  · intro me mp ms r' hr'
    unfold retrieve_relevant_context at hr'
    rw [hq] at hr'
    have := Option.some.inj hr'
    rw [← this]

/-- Witness for C5 at a concrete model and empty store. -/
theorem retrieve_qa_limit_fixed_two_witness :
    ({ experiences := [], projects := [], skills := [], qa_pairs := [] } : Retrieved).qa_pairs =
      search_qa_pairs sim0 emptyStore [1] 1 2 ∧
    ({ experiences := [], projects := [], skills := [], qa_pairs := [] } : Retrieved).qa_pairs.length ≤ 2 := by
  have h := retrieve_qa_limit_fixed_two sim0 model0 emptyStore "q" 1 3 2 5
    { experiences := [], projects := [], skills := [], qa_pairs := [] } [1] rfl rfl
  exact ⟨h.2.2.2.1, h.2.2.2.2.1⟩

/-- Claim C2: on any index state built by a sequence of upserts, a search of
any of the four kinds under owner id A returns only results whose
stored payload kb_id is A — never one equal to a distinct owner id B,
because every upsert stamps its owner id into the stored payload and
every search filters on it. -/
theorem search_partition_isolation (sim : List ℚ → List ℚ → ℚ) (ops : List UpsertOp)
    (q : List ℚ) (A B : Int) (lim : Nat) (hAB : A ≠ B) :
    (∀ r ∈ search_experiences sim (applyUpserts ops emptyStore) q A lim,
      pyGet r.payload "kb_id" = some (.int A) ∧ pyGet r.payload "kb_id" ≠ some (.int B)) ∧
    (∀ r ∈ search_projects sim (applyUpserts ops emptyStore) q A lim,
      pyGet r.payload "kb_id" = some (.int A) ∧ pyGet r.payload "kb_id" ≠ some (.int B)) ∧
    (∀ r ∈ search_skills sim (applyUpserts ops emptyStore) q A lim,
      pyGet r.payload "kb_id" = some (.int A) ∧ pyGet r.payload "kb_id" ≠ some (.int B)) ∧
    (∀ r ∈ search_qa_pairs sim (applyUpserts ops emptyStore) q A lim,
      pyGet r.payload "kb_id" = some (.int A) ∧ pyGet r.payload "kb_id" ≠ some (.int B)) := by
  have key : ∀ (points : List Point) (r : SearchResult),
      r ∈ queryPoints sim points q A lim →
      pyGet r.payload "kb_id" = some (.int A) ∧ pyGet r.payload "kb_id" ≠ some (.int B) := by
    intro points r hr
    obtain ⟨p, _, hmatch, hpay⟩ := mem_queryPoints sim points q A lim r hr
    have hA : pyGet r.payload "kb_id" = some (.int A) := by
      rw [hpay]
      exact matchKb_eq_true p.payload A hmatch
    refine ⟨hA, ?_⟩
    rw [hA]
    intro heq
    exact hAB (by simpa using heq)
  exact ⟨fun r hr => key _ r hr, fun r hr => key _ r hr,
    fun r hr => key _ r hr, fun r hr => key _ r hr⟩

/-- The one result of searching owner 1 over the two-owner store. -/
def resW : SearchResult :=
  { score := 0,
    payload := [("title", .str "owner one role"), ("kb_id", .int 1),
      ("experience_id", .str "exp_0"), ("type", .str "work_experience")] }

/-- Witness for C2 with owners 1 and 2 each holding one experience: the
returned point carries owner id 1, not 2. -/
theorem search_partition_isolation_witness :
    pyGet resW.payload "kb_id" = some (.int 1) ∧
    pyGet resW.payload "kb_id" ≠ some (.int 2) := by
  have hmem : resW ∈ search_experiences sim0 (applyUpserts opsAB emptyStore) [1] 1 5 := by
    have hlist : search_experiences sim0 (applyUpserts opsAB emptyStore) [1] 1 5 = [resW] := rfl
    rw [hlist]
    exact List.mem_singleton.mpr rfl
  exact (search_partition_isolation sim0 opsAB [1] 1 2 5 (by decide)).1 resW hmem

/-- Claim C6: indexing skips exactly the items that fail to embed or whose
upsert call raises — each collection ends with one new point per
surviving item of its kind, whatever failed elsewhere — and, in
particular, on five projects of which the one at index 2 fails to
encode, indexing completes with the other four projects stored. -/
theorem index_knowledge_base_skip_and_continue (model : String → Option (List ℚ))
    (ufail : String → String → Bool) (kb_id : Int) (kb : KBData) (st : Store) :
    ((index_knowledge_base model ufail kb_id kb st).work_experiences.length =
      st.work_experiences.length + expSuccCount model ufail kb.work_experience 0) ∧
    ((index_knowledge_base model ufail kb_id kb st).projects.length =
      st.projects.length + projSuccCount model ufail kb.projects 0) ∧
    ((index_knowledge_base model ufail kb_id kb st).skills.length =
      st.skills.length + skillSuccCount model ufail kb.skills 0) ∧
    ((index_knowledge_base model ufail kb_id kb st).qa_pairs.length =
      st.qa_pairs.length + qaSuccCount model ufail kb.qa_pairs 0) ∧
    ((index_knowledge_base model0 noUpsertFail 1 kb5 emptyStore).projects.length = 4 ∧
      encode_project model0 badProj = none ∧ kb5.projects.length = 5) := by
  unfold index_knowledge_base
  refine ⟨?_, ?_, ?_, ?_, ?_, ?_, ?_⟩
  · rw [(indexQaPairs_preserves model ufail kb_id kb.qa_pairs 0 _).1,
      (indexSkills_preserves model ufail kb_id kb.skills 0 _).1,
      (indexProjects_preserves model ufail kb_id kb.projects 0 _).1,
      indexExperiences_length model ufail kb_id kb.work_experience 0 st]
  · rw [(indexQaPairs_preserves model ufail kb_id kb.qa_pairs 0 _).2.1,
      (indexSkills_preserves model ufail kb_id kb.skills 0 _).2.1,
      indexProjects_length model ufail kb_id kb.projects 0 _,
      (indexExperiences_preserves model ufail kb_id kb.work_experience 0 st).1]
  · rw [(indexQaPairs_preserves model ufail kb_id kb.qa_pairs 0 _).2.2,
      indexSkills_length model ufail kb_id kb.skills 0 _,
      (indexProjects_preserves model ufail kb_id kb.projects 0 _).2.1,
      (indexExperiences_preserves model ufail kb_id kb.work_experience 0 st).2.1]
  · rw [indexQaPairs_length model ufail kb_id kb.qa_pairs 0 _,
      (indexSkills_preserves model ufail kb_id kb.skills 0 _).2.2,
      (indexProjects_preserves model ufail kb_id kb.projects 0 _).2.2,
      (indexExperiences_preserves model ufail kb_id kb.work_experience 0 st).2.2]
  · decide
  · decide
  · decide

/-- Claim C7: each upsert appends one new point whose stored payload is the
input payload extended with the owner id, the local id and the kind
discriminator (work_experience, project, skill, qa), every other payload
key reading unchanged; and every point the indexing pipeline adds
carries a local id of the form prefix underscore position with
zero-based positions and prefixes exp, proj, skill, qa. -/
theorem upsert_decorates_and_local_ids (st : Store) (kb_id : Int) (lid : String)
    (vec : List ℚ) (payload : Dict) :
    ((upsert_work_experience st kb_id lid vec payload).work_experiences =
        st.work_experiences ++ [mkExpPoint st kb_id lid vec payload] ∧
      pyGet (mkExpPoint st kb_id lid vec payload).payload "kb_id" = some (.int kb_id) ∧
      pyGet (mkExpPoint st kb_id lid vec payload).payload "experience_id" = some (.str lid) ∧
      pyGet (mkExpPoint st kb_id lid vec payload).payload "type" =
        some (.str "work_experience") ∧
      (∀ k, k ≠ "kb_id" → k ≠ "experience_id" → k ≠ "type" →
        pyGet (mkExpPoint st kb_id lid vec payload).payload k = pyGet payload k)) ∧
    ((upsert_project st kb_id lid vec payload).projects =
        st.projects ++ [mkProjPoint st kb_id lid vec payload] ∧
      pyGet (mkProjPoint st kb_id lid vec payload).payload "kb_id" = some (.int kb_id) ∧
      pyGet (mkProjPoint st kb_id lid vec payload).payload "project_id" = some (.str lid) ∧
      pyGet (mkProjPoint st kb_id lid vec payload).payload "type" = some (.str "project") ∧
      (∀ k, k ≠ "kb_id" → k ≠ "project_id" → k ≠ "type" →
        pyGet (mkProjPoint st kb_id lid vec payload).payload k = pyGet payload k)) ∧
    ((upsert_skill st kb_id lid vec payload).skills =
        st.skills ++ [mkSkillPoint st kb_id lid vec payload] ∧
      pyGet (mkSkillPoint st kb_id lid vec payload).payload "kb_id" = some (.int kb_id) ∧
      pyGet (mkSkillPoint st kb_id lid vec payload).payload "skill_id" = some (.str lid) ∧
      pyGet (mkSkillPoint st kb_id lid vec payload).payload "type" = some (.str "skill") ∧
      (∀ k, k ≠ "kb_id" → k ≠ "skill_id" → k ≠ "type" →
        pyGet (mkSkillPoint st kb_id lid vec payload).payload k = pyGet payload k)) ∧
    ((upsert_qa_pair st kb_id lid vec payload).qa_pairs =
        st.qa_pairs ++ [mkQaPoint st kb_id lid vec payload] ∧
      pyGet (mkQaPoint st kb_id lid vec payload).payload "kb_id" = some (.int kb_id) ∧
      pyGet (mkQaPoint st kb_id lid vec payload).payload "qa_id" = some (.str lid) ∧
      pyGet (mkQaPoint st kb_id lid vec payload).payload "type" = some (.str "qa") ∧
      (∀ k, k ≠ "kb_id" → k ≠ "qa_id" → k ≠ "type" →
        pyGet (mkQaPoint st kb_id lid vec payload).payload k = pyGet payload k)) ∧
    (∀ (model : String → Option (List ℚ)) (ufail : String → String → Bool) (kb : KBData)
        (p : Point),
      (p ∈ (index_knowledge_base model ufail kb_id kb st).work_experiences →
        p ∈ st.work_experiences ∨ ∃ i, i < kb.work_experience.length ∧
          pyGet p.payload "experience_id" = some (.str ("exp_" ++ toString i))) ∧
      (p ∈ (index_knowledge_base model ufail kb_id kb st).projects →
        p ∈ st.projects ∨ ∃ i, i < kb.projects.length ∧
          pyGet p.payload "project_id" = some (.str ("proj_" ++ toString i))) ∧
      (p ∈ (index_knowledge_base model ufail kb_id kb st).skills →
        p ∈ st.skills ∨ ∃ i, i < kb.skills.length ∧
          pyGet p.payload "skill_id" = some (.str ("skill_" ++ toString i))) ∧
      (p ∈ (index_knowledge_base model ufail kb_id kb st).qa_pairs →
        p ∈ st.qa_pairs ∨ ∃ i, i < kb.qa_pairs.length ∧
          pyGet p.payload "qa_id" = some (.str ("qa_" ++ toString i)))) := by
  refine ⟨⟨rfl, ?_, ?_, ?_, ?_⟩, ⟨rfl, ?_, ?_, ?_, ?_⟩, ⟨rfl, ?_, ?_, ?_, ?_⟩,
    ⟨rfl, ?_, ?_, ?_, ?_⟩, ?_⟩
  · show pyGet (dictSet (dictSet (dictSet payload "kb_id" (.int kb_id))
      "experience_id" (.str lid)) "type" (.str "work_experience")) "kb_id" = _
    rw [pyGet_dictSet_other _ _ _ _ (by decide), pyGet_dictSet_other _ _ _ _ (by decide),
      pyGet_dictSet_same]
  · show pyGet (dictSet (dictSet (dictSet payload "kb_id" (.int kb_id))
      "experience_id" (.str lid)) "type" (.str "work_experience")) "experience_id" = _
    rw [pyGet_dictSet_other _ _ _ _ (by decide), pyGet_dictSet_same]
  · exact pyGet_dictSet_same _ _ _
  · intro k h1 h2 h3
    show pyGet (dictSet (dictSet (dictSet payload "kb_id" (.int kb_id))
      "experience_id" (.str lid)) "type" (.str "work_experience")) k = _
    rw [pyGet_dictSet_other _ _ _ _ h3, pyGet_dictSet_other _ _ _ _ h2,
      pyGet_dictSet_other _ _ _ _ h1]
  · show pyGet (dictSet (dictSet (dictSet payload "kb_id" (.int kb_id))
      "project_id" (.str lid)) "type" (.str "project")) "kb_id" = _
    rw [pyGet_dictSet_other _ _ _ _ (by decide), pyGet_dictSet_other _ _ _ _ (by decide),
      pyGet_dictSet_same]
  · show pyGet (dictSet (dictSet (dictSet payload "kb_id" (.int kb_id))
      "project_id" (.str lid)) "type" (.str "project")) "project_id" = _
    rw [pyGet_dictSet_other _ _ _ _ (by decide), pyGet_dictSet_same]
  · exact pyGet_dictSet_same _ _ _
  · intro k h1 h2 h3
    show pyGet (dictSet (dictSet (dictSet payload "kb_id" (.int kb_id))
      "project_id" (.str lid)) "type" (.str "project")) k = _
    rw [pyGet_dictSet_other _ _ _ _ h3, pyGet_dictSet_other _ _ _ _ h2,
      pyGet_dictSet_other _ _ _ _ h1]
  · show pyGet (dictSet (dictSet (dictSet payload "kb_id" (.int kb_id))
      "skill_id" (.str lid)) "type" (.str "skill")) "kb_id" = _
    rw [pyGet_dictSet_other _ _ _ _ (by decide), pyGet_dictSet_other _ _ _ _ (by decide),
      pyGet_dictSet_same]
  · show pyGet (dictSet (dictSet (dictSet payload "kb_id" (.int kb_id))
      "skill_id" (.str lid)) "type" (.str "skill")) "skill_id" = _
    rw [pyGet_dictSet_other _ _ _ _ (by decide), pyGet_dictSet_same]
  · exact pyGet_dictSet_same _ _ _
  · intro k h1 h2 h3
    show pyGet (dictSet (dictSet (dictSet payload "kb_id" (.int kb_id))
      "skill_id" (.str lid)) "type" (.str "skill")) k = _
    rw [pyGet_dictSet_other _ _ _ _ h3, pyGet_dictSet_other _ _ _ _ h2,
      pyGet_dictSet_other _ _ _ _ h1]
  · show pyGet (dictSet (dictSet (dictSet payload "kb_id" (.int kb_id))
      "qa_id" (.str lid)) "type" (.str "qa")) "kb_id" = _
    rw [pyGet_dictSet_other _ _ _ _ (by decide), pyGet_dictSet_other _ _ _ _ (by decide),
      pyGet_dictSet_same]
  · show pyGet (dictSet (dictSet (dictSet payload "kb_id" (.int kb_id))
      "qa_id" (.str lid)) "type" (.str "qa")) "qa_id" = _
    rw [pyGet_dictSet_other _ _ _ _ (by decide), pyGet_dictSet_same]
  · exact pyGet_dictSet_same _ _ _
  · intro k h1 h2 h3
    show pyGet (dictSet (dictSet (dictSet payload "kb_id" (.int kb_id))
      "qa_id" (.str lid)) "type" (.str "qa")) k = _
    rw [pyGet_dictSet_other _ _ _ _ h3, pyGet_dictSet_other _ _ _ _ h2,
      pyGet_dictSet_other _ _ _ _ h1]
  · intro model ufail kb p
    refine ⟨?_, ?_, ?_, ?_⟩
    · intro hp
      unfold index_knowledge_base at hp
      rw [(indexQaPairs_preserves model ufail kb_id kb.qa_pairs 0 _).1,
        (indexSkills_preserves model ufail kb_id kb.skills 0 _).1,
        (indexProjects_preserves model ufail kb_id kb.projects 0 _).1] at hp
      rcases mem_indexExperiences model ufail kb_id kb.work_experience 0 st p hp with
        hl | ⟨j, hj, hkey⟩
      · exact Or.inl hl
      · rw [Nat.zero_add] at hkey
        exact Or.inr ⟨j, hj, hkey⟩
    · intro hp
      unfold index_knowledge_base at hp
      rw [(indexQaPairs_preserves model ufail kb_id kb.qa_pairs 0 _).2.1,
        (indexSkills_preserves model ufail kb_id kb.skills 0 _).2.1] at hp
      rcases mem_indexProjects model ufail kb_id kb.projects 0 _ p hp with
        hl | ⟨j, hj, hkey⟩
      · rw [(indexExperiences_preserves model ufail kb_id kb.work_experience 0 st).1] at hl
        exact Or.inl hl
      · rw [Nat.zero_add] at hkey
        exact Or.inr ⟨j, hj, hkey⟩
    · intro hp
      unfold index_knowledge_base at hp
      rw [(indexQaPairs_preserves model ufail kb_id kb.qa_pairs 0 _).2.2] at hp
      rcases mem_indexSkills model ufail kb_id kb.skills 0 _ p hp with
        hl | ⟨j, hj, hkey⟩
      · rw [(indexProjects_preserves model ufail kb_id kb.projects 0 _).2.1,
          (indexExperiences_preserves model ufail kb_id kb.work_experience 0 st).2.1] at hl
        exact Or.inl hl
      · rw [Nat.zero_add] at hkey
        exact Or.inr ⟨j, hj, hkey⟩
    · intro hp
      unfold index_knowledge_base at hp
      rcases mem_indexQaPairs model ufail kb_id kb.qa_pairs 0 _ p hp with
        hl | ⟨j, hj, hkey⟩
      · rw [(indexSkills_preserves model ufail kb_id kb.skills 0 _).2.2,
          (indexProjects_preserves model ufail kb_id kb.projects 0 _).2.2,
          (indexExperiences_preserves model ufail kb_id kb.work_experience 0 st).2.2] at hl
        exact Or.inl hl
      · rw [Nat.zero_add] at hkey
        exact Or.inr ⟨j, hj, hkey⟩

/-- Witness for C7: the decorated payload keeps an unrelated key, and the
stamped keys read back, at a concrete upsert. -/
theorem upsert_decorates_and_local_ids_witness :
    pyGet (mkExpPoint emptyStore 5 "exp_0" [1] payW).payload "title" = pyGet payW "title" ∧
    pyGet (mkExpPoint emptyStore 5 "exp_0" [1] payW).payload "kb_id" = some (.int 5) ∧
    pyGet (mkExpPoint emptyStore 5 "exp_0" [1] payW).payload "experience_id" =
      some (.str "exp_0") := by
  have h := upsert_decorates_and_local_ids emptyStore 5 "exp_0" [1] payW
  exact ⟨h.1.2.2.2.2 "title" (by decide) (by decide) (by decide), h.1.2.1, h.1.2.2.1⟩

/-- Claim C8: on an existing knowledge-base row, the index endpoint reports
per kind exactly the length of the corresponding input list or mapping
— the count of items attempted — not the number of items stored, which
can only be at most that many; concretely, on the five-project row whose
item at index 2 fails to encode, the response still reports five
projects while four points were stored. -/
theorem index_endpoint_reports_attempted (model : String → Option (List ℚ))
    (ufail : String → String → Bool) (st : Store) (kb : KBRecord) (kb_id : Int) :
    (∃ counts st' kb', index_endpoint model ufail st (some kb) kb_id =
        .ok (counts, st', kb') ∧
      counts.experiences = (kbDataOf kb).work_experience.length ∧
      counts.projects = (kbDataOf kb).projects.length ∧
      counts.skills = (kbDataOf kb).skills.length ∧
      counts.qa_pairs = (kbDataOf kb).qa_pairs.length ∧
      st'.work_experiences.length ≤ st.work_experiences.length + counts.experiences ∧
      st'.projects.length ≤ st.projects.length + counts.projects ∧
      st'.skills.length ≤ st.skills.length + counts.skills ∧
      st'.qa_pairs.length ≤ st.qa_pairs.length + counts.qa_pairs) ∧
    (∃ counts st' kb', index_endpoint model0 noUpsertFail emptyStore (some kbRec5) 1 =
        .ok (counts, st', kb') ∧
      counts.projects = 5 ∧ st'.projects.length = 4) := by
  constructor
  · refine ⟨_, _, _, rfl, rfl, rfl, rfl, rfl, ?_, ?_, ?_, ?_⟩
    · unfold index_knowledge_base
      rw [(indexQaPairs_preserves model ufail kb_id (kbDataOf kb).qa_pairs 0 _).1,
        (indexSkills_preserves model ufail kb_id (kbDataOf kb).skills 0 _).1,
        (indexProjects_preserves model ufail kb_id (kbDataOf kb).projects 0 _).1,
        indexExperiences_length model ufail kb_id (kbDataOf kb).work_experience 0 st]
      exact Nat.add_le_add_left (expSuccCount_le model ufail _ 0) _
    · unfold index_knowledge_base
      rw [(indexQaPairs_preserves model ufail kb_id (kbDataOf kb).qa_pairs 0 _).2.1,
        (indexSkills_preserves model ufail kb_id (kbDataOf kb).skills 0 _).2.1,
        indexProjects_length model ufail kb_id (kbDataOf kb).projects 0 _,
        (indexExperiences_preserves model ufail kb_id (kbDataOf kb).work_experience 0 st).1]
      exact Nat.add_le_add_left (projSuccCount_le model ufail _ 0) _
    · unfold index_knowledge_base
      rw [(indexQaPairs_preserves model ufail kb_id (kbDataOf kb).qa_pairs 0 _).2.2,
        indexSkills_length model ufail kb_id (kbDataOf kb).skills 0 _,
        (indexProjects_preserves model ufail kb_id (kbDataOf kb).projects 0 _).2.1,
        (indexExperiences_preserves model ufail kb_id (kbDataOf kb).work_experience 0 st).2.1]
      exact Nat.add_le_add_left (skillSuccCount_le model ufail _ 0) _
    · unfold index_knowledge_base
      rw [indexQaPairs_length model ufail kb_id (kbDataOf kb).qa_pairs 0 _,
        (indexSkills_preserves model ufail kb_id (kbDataOf kb).skills 0 _).2.2,
        (indexProjects_preserves model ufail kb_id (kbDataOf kb).projects 0 _).2.2,
        (indexExperiences_preserves model ufail kb_id (kbDataOf kb).work_experience 0 st).2.2]
      exact Nat.add_le_add_left (qaSuccCount_le model ufail _ 0) _
  · refine ⟨_, _, _, rfl, by decide, by decide⟩
